import Mathlib

/-!
# Scrubbed sequence renderer (`script.js`)

A shallow embedding of the canvas image-sequence script: the preloader
(`img.onload` / `img.onerror`, `startWebsite`), the cover-fit compositor
(`render`, `scaleImage`), the animation-frame throttle (`requestTick`) and the
debounced resize listener.

Modelling conventions.

* JavaScript numbers are modelled by `JSNum`: a finite value (a rational),
  `Infinity`, `-Infinity` or `NaN`.  Every arithmetic operation rounds its exact
  result as IEEE-754 binary64 does (`JSNum.round`: nearest, ties to even,
  53-bit significand, subnormals below `2^-1022`, overflow to infinity from
  `2^1024`).  The sign of zero is not modelled; every divisor in the script is a
  non-negative integer (an image dimension, `frameCount`, the literal `2`), so a
  zero divisor is `+0`.  The DOM's integer attributes (`canvas.width`,
  `img.width`, `window.innerWidth`) are `unsigned long` or `long` values and
  convert exactly.
* The 2D context is modelled by the list of calls made on it.
* Timers and animation-frame callbacks are modelled by the sets of pending
  callbacks; the browser firing one is an explicit step.
-/

namespace Portfolio

/-! ## JavaScript numbers -/

/-- Rounding to the nearest integer, ties to the even one. -/
def roundHalfEven (x : ℚ) : Int :=
  let f := Int.floor x
  let r := x - f
  if r < 1 / 2 then f
  else if 1 / 2 < r then f + 1
  else if f % 2 = 0 then f
  else f + 1

/-- The exponent of the binade of `q`: the integer part of `log2 |q|`, and `-1022` (the
smallest normal exponent) below it. -/
def binade (q : ℚ) : Int := max (Int.log 2 |q|) (-1022)

/-- The spacing of the doubles in the binade of `q`: 52 fraction bits. -/
def ulp (q : ℚ) : ℚ := (2 : ℚ) ^ (binade q - 52)

/-- The multiple of the spacing nearest to `q`, ties to the even significand. -/
def roundQ (q : ℚ) : ℚ := roundHalfEven (q / ulp q) * ulp q

/-- A JavaScript number: a finite value, `Infinity`, `-Infinity` or `NaN`. -/
inductive JSNum where
  | fin (q : ℚ)
  | posInf
  | negInf
  | nan
deriving DecidableEq

namespace JSNum

/-- The double an exact result `q` is rounded to; an infinity once the rounded magnitude
reaches `2^1024`. -/
def round (q : ℚ) : JSNum :=
  if (2 : ℚ) ^ 1024 ≤ |roundQ q| then
    if 0 < q then posInf else negInf
  else fin (roundQ q)

/-- An integer-valued JavaScript number (`canvas.width`, `img.width`, a literal). -/
def ofNat (n : Nat) : JSNum := fin (n : ℚ)

/-- The JavaScript `a + b`. -/
def add : JSNum → JSNum → JSNum
  | fin a, fin b => round (a + b)
  | fin _, posInf => posInf
  | fin _, negInf => negInf
  | posInf, fin _ => posInf
  | negInf, fin _ => negInf
  | posInf, posInf => posInf
  | negInf, negInf => negInf
  | posInf, negInf => nan
  | negInf, posInf => nan
  | nan, _ => nan
  | _, nan => nan

/-- The JavaScript `a - b`. -/
def sub : JSNum → JSNum → JSNum
  | fin a, fin b => round (a - b)
  | fin _, posInf => negInf
  | fin _, negInf => posInf
  | posInf, fin _ => posInf
  | negInf, fin _ => negInf
  | posInf, negInf => posInf
  | negInf, posInf => negInf
  | posInf, posInf => nan
  | negInf, negInf => nan
  | nan, _ => nan
  | _, nan => nan

/-- Product of a finite value with an infinity of sign `pos`. -/
def mulInf (q : ℚ) (pos : Bool) : JSNum :=
  if q = 0 then nan
  else if (0 < q) = pos then posInf
  else negInf

/-- The JavaScript `a * b`. -/
def mul : JSNum → JSNum → JSNum
  | fin a, fin b => round (a * b)
  | fin a, posInf => mulInf a true
  | fin a, negInf => mulInf a false
  | posInf, fin b => mulInf b true
  | negInf, fin b => mulInf b false
  | posInf, posInf => posInf
  | negInf, negInf => posInf
  | posInf, negInf => negInf
  | negInf, posInf => negInf
  | nan, _ => nan
  | _, nan => nan

/-- The JavaScript `a / b`, a zero divisor being `+0`. -/
def div : JSNum → JSNum → JSNum
  | fin a, fin b =>
    if b = 0 then
      if a = 0 then nan else if 0 < a then posInf else negInf
    else round (a / b)
  | fin _, posInf => fin 0
  | fin _, negInf => fin 0
  | posInf, fin b => if 0 ≤ b then posInf else negInf
  | negInf, fin b => if 0 ≤ b then negInf else posInf
  | posInf, posInf => nan
  | posInf, negInf => nan
  | negInf, posInf => nan
  | negInf, negInf => nan
  | nan, _ => nan
  | _, nan => nan

/-- The JavaScript `Math.max(a, b)`: `NaN` if either argument is `NaN`. -/
def max : JSNum → JSNum → JSNum
  | fin a, fin b => fin (Max.max a b)
  | nan, _ => nan
  | _, nan => nan
  | posInf, _ => posInf
  | _, posInf => posInf
  | negInf, b => b
  | a, negInf => a

/-- The JavaScript `a < b`: false as soon as an argument is `NaN`. -/
def lt : JSNum → JSNum → Bool
  | fin a, fin b => decide (a < b)
  | fin _, posInf => true
  | negInf, fin _ => true
  | negInf, posInf => true
  | _, _ => false

end JSNum

/-! ## Images, canvas and 2D context -/

/-- The load state of an `Image` object: the spec's Pending, Loaded, Failed. -/
inductive LoadState where
  | pending
  | loaded (naturalWidth naturalHeight : Nat)
  | failed
deriving DecidableEq

/-- The source's `files(index)`: the locator of frame `index`, 1-indexed. -/
def files (index : Nat) : String :=
  "./Images/" ++ toString (index + 1) ++ ".webp"

/-- An `Image` object created by the preloading loop for frame `index`. -/
structure Image where
  index : Nat
  state : LoadState
deriving DecidableEq

namespace Image

/-- The `img.src` assigned in the loop: `files(i)`. -/
def src (img : Image) : String := files img.index

/-- The DOM's `img.width`: the natural width once loaded, `0` until then and after a failure. -/
def width (img : Image) : Nat :=
  match img.state with
  | LoadState.loaded w _ => w
  | _ => 0

/-- The DOM's `img.height`: the natural height once loaded, `0` until then and after a failure. -/
def height (img : Image) : Nat :=
  match img.state with
  | LoadState.loaded _ h => h
  | _ => 0

end Image

/-- The canvas element: its bitmap size. -/
structure Canvas where
  width : Nat
  height : Nat
deriving DecidableEq

/-- A call made on the 2D context. -/
inductive CtxCall where
  | clearRect (x y w h : JSNum)
  | drawImage (img : Image) (sx sy sw sh dx dy dw dh : JSNum)
deriving DecidableEq

/-- The 2D context: the canvas it belongs to (`ctx.canvas`) and the calls made on it, oldest first. -/
structure Context where
  canvas : Canvas
  calls : List CtxCall
deriving DecidableEq

namespace Context

/-- The call `ctx.clearRect(x, y, w, h)`. -/
def clearRect (ctx : Context) (x y w h : JSNum) : Context :=
  { ctx with calls := ctx.calls ++ [CtxCall.clearRect x y w h] }

/-- The call `ctx.drawImage(img, sx, sy, sw, sh, dx, dy, dw, dh)`. -/
def drawImage (ctx : Context) (img : Image) (sx sy sw sh dx dy dw dh : JSNum) : Context :=
  { ctx with calls := ctx.calls ++ [CtxCall.drawImage img sx sy sw sh dx dy dw dh] }

end Context

/-- The source's `scaleImage(img, ctx)`; `img` is `none` for `undefined`
(`images[i]` with `i` outside the array). An `Image` object is always truthy, so the
`if (!img) return` guard is the `none` branch and the later `if (img)` always passes. -/
def scaleImage (img : Option Image) (ctx : Context) : Context :=
  let canvas := ctx.canvas
  match img with
  | none => ctx
  | some img =>
    let hRatio := JSNum.div (JSNum.ofNat canvas.width) (JSNum.ofNat img.width)
    let vRatio := JSNum.div (JSNum.ofNat canvas.height) (JSNum.ofNat img.height)
    let ratio := JSNum.max hRatio vRatio
    let centerShift_x :=
      JSNum.div (JSNum.sub (JSNum.ofNat canvas.width) (JSNum.mul (JSNum.ofNat img.width) ratio))
        (JSNum.ofNat 2)
    let topOffset := JSNum.ofNat 50
    let centerShift_y :=
      JSNum.div (JSNum.sub (JSNum.ofNat canvas.height) (JSNum.mul (JSNum.ofNat img.height) ratio))
        (JSNum.ofNat 2)
    let centerShift_y :=
      if JSNum.lt centerShift_y (JSNum.ofNat 0) then JSNum.add (JSNum.ofNat 0) topOffset
      else centerShift_y
    let ctx := ctx.clearRect (JSNum.ofNat 0) (JSNum.ofNat 0)
      (JSNum.ofNat canvas.width) (JSNum.ofNat canvas.height)
    ctx.drawImage img (JSNum.ofNat 0) (JSNum.ofNat 0) (JSNum.ofNat img.width)
      (JSNum.ofNat img.height) centerShift_x centerShift_y
      (JSNum.mul (JSNum.ofNat img.width) ratio) (JSNum.mul (JSNum.ofNat img.height) ratio)

/-! ## Page state -/

/-- A pending `setTimeout` callback. The script schedules only one kind: the resize callback. -/
structure Timer where
  id : Nat
  delay : Nat
deriving DecidableEq

/-- The state the script works on: its module variables, the parts of the DOM it reads and
writes, and the browser's pending callbacks. `startWebsiteCalls`, `initScrollCalls`, `warnings`
and `renderedFrames` record calls; `progressWrites` records the percentages assigned to
`progressBar.style.width`, oldest first. -/
structure Page where
  frameCount : Nat
  hasLoader : Bool
  loaderHidden : Bool
  hasProgressBar : Bool
  progressWrites : List JSNum
  innerWidth : Nat
  innerHeight : Nat
  ctx : Context
  images : List Image
  frame : Nat
  loadedImages : Nat
  resizeTimeout : Option Nat
  timers : List Timer
  nextTimerId : Nat
  ticking : Bool
  rafPending : Nat
  startWebsiteCalls : Nat
  initScrollCalls : Nat
  warnings : List Nat
  renderedFrames : List Nat

/-- The state after the top-level statements of the script have run: the canvas sized to the
window, one pending `Image` per frame, `imageSeq.frame = 0`, `loadedImages = 0`,
`ticking = false`, no timer. -/
def initPage (frameCount innerWidth innerHeight : Nat) (hasLoader hasProgressBar : Bool) : Page :=
  { frameCount := frameCount
    hasLoader := hasLoader
    loaderHidden := false
    hasProgressBar := hasProgressBar
    progressWrites := []
    innerWidth := innerWidth
    innerHeight := innerHeight
    ctx := { canvas := { width := innerWidth, height := innerHeight }, calls := [] }
    images := (List.range frameCount).map (fun i => { index := i, state := LoadState.pending })
    frame := 0
    loadedImages := 0
    resizeTimeout := none
    timers := []
    nextTimerId := 1
    ticking := false
    rafPending := 0
    startWebsiteCalls := 0
    initScrollCalls := 0
    warnings := []
    renderedFrames := [] }

/-- The source's `render()`: `scaleImage(images[imageSeq.frame], context)`. -/
def render (p : Page) : Page :=
  { p with
    ctx := scaleImage p.images[p.frame]? p.ctx
    renderedFrames := p.renderedFrames ++ [p.frame] }

/-- The source's `initScroll()`: wiring of the scroll and animation libraries, kept as a call
count; the tween it registers on `imageSeq` is `scrubUpdate` below. -/
def initScroll (p : Page) : Page :=
  { p with initScrollCalls := p.initScrollCalls + 1 }

/-- The source's `startWebsite()`. -/
def startWebsite (p : Page) : Page :=
  let p := { p with startWebsiteCalls := p.startWebsiteCalls + 1 }
  let p := if p.hasLoader then { p with loaderHidden := true } else p
  let p := initScroll p
  render p

/-- The percentage `(loadedImages / frameCount) * 100`. -/
def percentage (loadedImages frameCount : Nat) : JSNum :=
  JSNum.mul (JSNum.div (JSNum.ofNat loadedImages) (JSNum.ofNat frameCount)) (JSNum.ofNat 100)

/-- The source's `img.onload` handler. -/
def onload (p : Page) : Page :=
  let p := { p with loadedImages := p.loadedImages + 1 }
  let p :=
    if p.hasProgressBar then
      { p with progressWrites := p.progressWrites ++ [percentage p.loadedImages p.frameCount] }
    else p
  if p.loadedImages = p.frameCount then startWebsite p else p

/-- The source's `img.onerror` handler of frame `i`. -/
def onerror (i : Nat) (p : Page) : Page :=
  let p := { p with warnings := p.warnings ++ [i] }
  let p := { p with loadedImages := p.loadedImages + 1 }
  if p.loadedImages = p.frameCount then startWebsite p else p

/-- The settlement of one frame's load attempt. -/
inductive Settle where
  | load (i naturalWidth naturalHeight : Nat)
  | error (i : Nat)
deriving DecidableEq

/-- The frame a settlement is about. -/
def Settle.index : Settle → Nat
  | Settle.load i _ _ => i
  | Settle.error i => i

/-- The browser giving frame `i` the load state `s`. -/
def setLoadState (i : Nat) (s : LoadState) (images : List Image) : List Image :=
  images.map (fun img => if img.index = i then { img with state := s } else img)

/-- The browser settling one load attempt: it updates the `Image` object, then runs its
`onload` or `onerror` handler. -/
def settle (e : Settle) (p : Page) : Page :=
  match e with
  | Settle.load i w h =>
    onload { p with images := setLoadState i (LoadState.loaded w h) p.images }
  | Settle.error i =>
    onerror i { p with images := setLoadState i LoadState.failed p.images }

/-- A sequence of settlements, in the order the browser delivers them. -/
def settleAll (evs : List Settle) (p : Page) : Page :=
  evs.foldl (fun p e => settle e p) p

/-- The percentage the progress bar shows: the last one written to it, if any. -/
def shownPercentage (p : Page) : Option JSNum :=
  p.progressWrites.getLast?

/-! ## Resize debounce -/

/-- The browser's `clearTimeout(id)`; `none` is `undefined`. -/
def clearTimeout (id : Option Nat) (timers : List Timer) : List Timer :=
  match id with
  | none => timers
  | some id => timers.filter (fun t => t.id != id)

/-- The source's resize listener: cancel the pending timer, start a new one of 100 ms. -/
def onResize (p : Page) : Page :=
  let timers := clearTimeout p.resizeTimeout p.timers
  { p with
    timers := timers ++ [{ id := p.nextTimerId, delay := 100 }]
    resizeTimeout := some p.nextTimerId
    nextTimerId := p.nextTimerId + 1 }

/-- A resize event: the window takes its new size, then the listener runs. -/
def resizeEvent (size : Nat × Nat) (p : Page) : Page :=
  onResize { p with innerWidth := size.1, innerHeight := size.2 }

/-- A burst of resize events with no timer firing in between. -/
def resizeBurst (sizes : List (Nat × Nat)) (p : Page) : Page :=
  sizes.foldl (fun p s => resizeEvent s p) p

/-- The callback passed to `setTimeout`: size the canvas to the window and repaint. -/
def resizeCallback (p : Page) : Page :=
  render { p with ctx := { p.ctx with canvas := { width := p.innerWidth, height := p.innerHeight } } }

/-- The browser firing every pending timer (their delays have elapsed), oldest first. -/
def fireTimers (p : Page) : Page :=
  p.timers.foldl (fun p _ => resizeCallback p) { p with timers := [] }

/-! ## Animation-frame throttle -/

/-- The callback passed to `requestAnimationFrame`. -/
def rafCallback (p : Page) : Page :=
  let p := render p
  { p with ticking := false }

/-- The source's `requestTick()`. -/
def requestTick (p : Page) : Page :=
  if !p.ticking then
    let p := { p with rafPending := p.rafPending + 1 }
    { p with ticking := true }
  else p

/-- One update of the scrub tween: it sets `imageSeq.frame`, then calls `onUpdate`. -/
def scrubUpdate (frame : Nat) (p : Page) : Page :=
  requestTick { p with frame := frame }

/-- The scrub updates arriving between two display refreshes. -/
def scrubBurst (frames : List Nat) (p : Page) : Page :=
  frames.foldl (fun p f => scrubUpdate f p) p

/-- A display refresh: the browser runs every pending animation-frame callback. -/
def displayRefresh (p : Page) : Page :=
  Nat.iterate rafCallback p.rafPending { p with rafPending := 0 }

/-! ## Scrub tween -/

/-- The JavaScript `Math.round` on a finite value: the nearest integer, halves upward. -/
def jsRound (x : ℚ) : Int := Int.floor (x + 1 / 2)

/-- Modelled from the spec: the scrub tween of the animation library (the `gsap.to` call on
`imageSeq` with target `frame: frameCount - 1`, linear ease and snapping to whole frames),
whose code is not part of the script. The spec's map is `frame = round(progress * (N-1))`,
clamped to `[0, N-1]`. -/
def scrubFrame (frameCount : Nat) (progress : ℚ) : Nat :=
  (min (max (jsRound (progress * ((frameCount : ℚ) - 1))) 0) ((frameCount : Int) - 1)).toNat



/-! ## Predicates used in the statements -/

/-- The vertical centring offset `scaleImage` computes before its negative-offset test:
`(canvas.height - img.height * ratio) / 2` with `ratio = Math.max(hRatio, vRatio)`. -/
def computedShiftY (c : Canvas) (img : Image) : JSNum :=
  JSNum.div
    (JSNum.sub (JSNum.ofNat c.height)
      (JSNum.mul (JSNum.ofNat img.height)
        (JSNum.max (JSNum.div (JSNum.ofNat c.width) (JSNum.ofNat img.width))
          (JSNum.div (JSNum.ofNat c.height) (JSNum.ofNat img.height)))))
    (JSNum.ofNat 2)

/-- Whether the destination rectangle of a `drawImage` call contains the whole surface
`[0, width] x [0, height]` of the canvas. -/
def coversSurface (c : Canvas) : CtxCall → Bool
  | CtxCall.drawImage _ _ _ _ _ (JSNum.fin dx) (JSNum.fin dy) (JSNum.fin dw) (JSNum.fin dh) =>
    decide (dx ≤ 0) && decide (dy ≤ 0) && decide ((c.width : ℚ) ≤ dx + dw)
      && decide ((c.height : ℚ) ≤ dy + dh)
  | _ => false

/-- Every pending timer is the one whose id the script holds in `resizeTimeout`. -/
def TimersRecorded (p : Page) : Prop :=
  ∀ t ∈ p.timers, p.resizeTimeout = some t.id

instance (p : Page) : Decidable (TimersRecorded p) := by
  unfold TimersRecorded
  infer_instance

/-- At most one animation-frame callback is pending, and `ticking` tells whether one is. -/
def TickingRecorded (p : Page) : Prop :=
  p.rafPending = if p.ticking then 1 else 0

instance (p : Page) : Decidable (TickingRecorded p) := by
  unfold TickingRecorded
  infer_instance

/-! # Properties -/

/-! ## Rounding -/

theorem roundHalfEven_sub_le (x : ℚ) : |(roundHalfEven x : ℚ) - x| ≤ 1 / 2 := by
  have h1 := Int.floor_le x
  have h2 := Int.lt_floor_add_one x
  unfold roundHalfEven
  simp only
  rw [abs_le]
  split_ifs with ha hb hc
  · constructor <;> linarith
  · push_cast; constructor <;> linarith
  · push_neg at ha hb
    constructor <;> linarith
  · push_neg at ha hb
    push_cast; constructor <;> linarith

theorem roundHalfEven_eq_of_abs_lt (x : ℚ) (m : Int) (h : |x - m| < 1 / 2) :
    roundHalfEven x = m := by
  rw [abs_lt] at h
  have h1 := Int.floor_le x
  have h2 := Int.lt_floor_add_one x
  have hfl : Int.floor x = m ∨ Int.floor x = m - 1 := by
    have a1 : m - 1 ≤ Int.floor x := by
      apply Int.le_floor.mpr
      push_cast; linarith
    have a2 : Int.floor x < m + 1 := by
      apply Int.floor_lt.mpr
      push_cast; linarith
    omega
  unfold roundHalfEven
  simp only
  rcases hfl with hf | hf
  · rw [hf]
    rw [if_pos (by linarith)]
  · rw [hf]
    have : ¬ (x - ((m - 1 : Int) : ℚ) < 1 / 2) := by push_cast; linarith
    rw [if_neg this, if_pos (by push_cast; linarith)]
    ring

theorem roundHalfEven_nonneg (x : ℚ) (hx : 0 ≤ x) : 0 ≤ roundHalfEven x := by
  have h0 : 0 ≤ Int.floor x := Int.floor_nonneg.mpr hx
  unfold roundHalfEven
  simp only
  split_ifs <;> omega

theorem roundHalfEven_nonpos (x : ℚ) (hx : x ≤ 0) : roundHalfEven x ≤ 0 := by
  have h1 := Int.floor_le x
  have h2 := Int.lt_floor_add_one x
  have h0 : Int.floor x ≤ 0 := by
    have : ((Int.floor x : Int) : ℚ) ≤ 0 := le_trans h1 hx
    exact_mod_cast this
  unfold roundHalfEven
  simp only
  split_ifs with ha hb hc
  · exact h0
  · by_contra hcon
    have h3 : Int.floor x = 0 := by omega
    rw [h3] at hb
    simp at hb
    linarith
  · exact h0
  · by_contra hcon
    have h3 : Int.floor x = 0 := by omega
    rw [h3] at hc
    simp at hc

theorem ulp_pos (q : ℚ) : 0 < ulp q := by
  unfold ulp
  positivity


theorem binade_eq (q : ℚ) (e : Int) (hlo : (2 : ℚ) ^ e ≤ |q|) (hhi : |q| < (2 : ℚ) ^ (e + 1))
    (he : -1022 ≤ e) : binade q = e := by
  have hpos : 0 < |q| := lt_of_lt_of_le (by positivity) hlo
  have h1 : e ≤ Int.log 2 |q| :=
    (Int.zpow_le_iff_le_log (by norm_num) hpos).mp (by exact_mod_cast hlo)
  have h2 : Int.log 2 |q| < e + 1 :=
    (Int.lt_zpow_iff_log_lt (by norm_num) hpos).mp (by exact_mod_cast hhi)
  unfold binade
  rw [max_eq_left (by omega)]
  omega

/-- Half a spacing is at most the relative error bound plus the subnormal half spacing. -/
theorem ulp_half_le (q : ℚ) (hq0 : q ≠ 0) :
    ulp q / 2 ≤ |q| / 2 ^ 53 + (2 : ℚ) ^ (-1075 : Int) := by
  unfold ulp binade
  rcases le_total (Int.log 2 |q|) (-1022) with h | h
  · rw [max_eq_right h]
    have : (2 : ℚ) ^ ((-1022 : Int) - 52) / 2 = (2 : ℚ) ^ (-1075 : Int) := by
      rw [show ((-1022 : Int) - 52) = (-1075) + 1 from by norm_num, zpow_add_one₀ (by norm_num)]
      ring
    rw [this]
    have : 0 ≤ |q| / 2 ^ 53 := by positivity
    linarith
  · rw [max_eq_left h]
    have hq : 0 < |q| := abs_pos.mpr hq0
    have hle : (2 : ℚ) ^ Int.log 2 |q| ≤ |q| := by
      have := Int.zpow_log_le_self (R := ℚ) (b := 2) (by norm_num) hq
      exact_mod_cast this
    have hsplit : (2 : ℚ) ^ (Int.log 2 |q| - 52) = (2 : ℚ) ^ Int.log 2 |q| / 2 ^ 52 := by
      rw [zpow_sub₀ (by norm_num)]
      norm_num
    rw [hsplit]
    have : 0 < (2 : ℚ) ^ (-1075 : Int) := by positivity
    have h53 : (2 : ℚ) ^ Int.log 2 |q| / 2 ^ 52 / 2 = (2 : ℚ) ^ Int.log 2 |q| / 2 ^ 53 := by
      ring
    rw [h53]
    have : (2 : ℚ) ^ Int.log 2 |q| / 2 ^ 53 ≤ |q| / 2 ^ 53 :=
      div_le_div_of_nonneg_right hle (by positivity)
    linarith

/-- In the normal range half a spacing is at most the relative error bound. -/
theorem ulp_half_le_normal (q : ℚ) (hq : (2 : ℚ) ^ (-1022 : Int) ≤ |q|) :
    ulp q / 2 ≤ |q| / 2 ^ 53 := by
  have hpos : 0 < |q| := lt_of_lt_of_le (by positivity) hq
  have h : (-1022 : Int) ≤ Int.log 2 |q| :=
    (Int.zpow_le_iff_le_log (by norm_num) hpos).mp (by exact_mod_cast hq)
  unfold ulp binade
  rw [max_eq_left h]
  have hle : (2 : ℚ) ^ Int.log 2 |q| ≤ |q| := by
    have := Int.zpow_log_le_self (R := ℚ) (b := 2) (by norm_num) hpos
    exact_mod_cast this
  rw [zpow_sub₀ (by norm_num)]
  have : (2 : ℚ) ^ Int.log 2 |q| / 2 ^ (52 : Int) / 2 = (2 : ℚ) ^ Int.log 2 |q| / 2 ^ 53 := by
    norm_num
    ring
  rw [this]
  exact div_le_div_of_nonneg_right hle (by positivity)

/-- Rounding moves a value by at most half a spacing. -/
theorem roundQ_sub_le (q : ℚ) : |roundQ q - q| ≤ ulp q / 2 := by
  have hu := ulp_pos q
  have h := roundHalfEven_sub_le (q / ulp q)
  unfold roundQ
  have : (roundHalfEven (q / ulp q) : ℚ) * ulp q - q
      = ((roundHalfEven (q / ulp q) : ℚ) - q / ulp q) * ulp q := by
    field_simp
  rw [this, abs_mul, abs_of_pos hu]
  calc |(roundHalfEven (q / ulp q) : ℚ) - q / ulp q| * ulp q ≤ 1 / 2 * ulp q :=
        mul_le_mul_of_nonneg_right h hu.le
    _ = ulp q / 2 := by ring

theorem roundQ_nonneg (q : ℚ) (hq : 0 ≤ q) : 0 ≤ roundQ q := by
  unfold roundQ
  have h := roundHalfEven_nonneg (q / ulp q) (div_nonneg hq (ulp_pos q).le)
  have : (0 : ℚ) ≤ roundHalfEven (q / ulp q) := by exact_mod_cast h
  exact mul_nonneg this (ulp_pos q).le

theorem roundQ_nonpos (q : ℚ) (hq : q ≤ 0) : roundQ q ≤ 0 := by
  unfold roundQ
  have h := roundHalfEven_nonpos (q / ulp q) (div_nonpos_of_nonpos_of_nonneg hq (ulp_pos q).le)
  have : (roundHalfEven (q / ulp q) : ℚ) ≤ 0 := by exact_mod_cast h
  exact mul_nonpos_of_nonpos_of_nonneg this (ulp_pos q).le

/-- Evaluation of a rounding: a value in binade `e` that lies within less than half a spacing
of `m * 2^(e-52)` rounds to it. -/
theorem roundQ_eq (q : ℚ) (e m : Int) (hlo : (2 : ℚ) ^ e ≤ |q|) (hhi : |q| < (2 : ℚ) ^ (e + 1))
    (he : -1022 ≤ e) (hm : |q / (2 : ℚ) ^ (e - 52) - m| < 1 / 2) :
    roundQ q = m * (2 : ℚ) ^ (e - 52) := by
  unfold roundQ ulp
  rw [binade_eq q e hlo hhi he, roundHalfEven_eq_of_abs_lt _ m hm]


theorem roundQ_zero : roundQ 0 = 0 := by
  unfold roundQ
  rw [zero_div]
  have : roundHalfEven 0 = 0 := roundHalfEven_eq_of_abs_lt 0 0 (by norm_num)
  rw [this]
  simp

/-- The error of a rounding: relative `2^-53`, plus half the subnormal spacing. -/
theorem roundQ_err (q : ℚ) : |roundQ q - q| ≤ |q| / 2 ^ 53 + (2 : ℚ) ^ (-1075 : Int) := by
  rcases eq_or_ne q 0 with h0 | h0
  · rw [h0, roundQ_zero]
    simp
    positivity
  · exact le_trans (roundQ_sub_le q) (ulp_half_le q h0)

/-- The error of a rounding in the normal range: relative `2^-53`. -/
theorem roundQ_err_normal (q : ℚ) (hq : (2 : ℚ) ^ (-1022 : Int) ≤ |q|) :
    |roundQ q - q| ≤ |q| / 2 ^ 53 :=
  le_trans (roundQ_sub_le q) (ulp_half_le_normal q hq)


/-- A rounding of bounded magnitude is finite. -/
theorem round_fin (q : ℚ) (hq : |q| ≤ 2 ^ 100) : JSNum.round q = JSNum.fin (roundQ q) := by
  have herr := roundQ_err q
  have ht : (2 : ℚ) ^ (-1075 : Int) ≤ 1 := zpow_le_one_of_nonpos₀ (by norm_num) (by norm_num)
  have habs : |roundQ q| ≤ |roundQ q - q| + |q| := by
    have := abs_add (roundQ q - q) q
    simpa using this
  have h53 : |q| / 2 ^ 53 ≤ |q| := div_le_self (abs_nonneg q) (by norm_num)
  have hlt : |roundQ q| < (2 : ℚ) ^ 1024 := by
    have h1 : |roundQ q| ≤ 2 ^ 100 + 2 ^ 100 + 1 := by linarith
    have h2 : (2 : ℚ) ^ 100 + 2 ^ 100 + 1 < 2 ^ 1024 := by norm_num
    linarith
  unfold JSNum.round
  rw [if_neg (not_le.mpr hlt)]

/-- Evaluation of an operation's rounding at a concrete value. -/
theorem round_eval (q v : ℚ) (e m : Int) (hlo : (2 : ℚ) ^ e ≤ |q|)
    (hhi : |q| < (2 : ℚ) ^ (e + 1)) (he : -1022 ≤ e)
    (hm : |q / (2 : ℚ) ^ (e - 52) - m| < 1 / 2) (hv : (m : ℚ) * (2 : ℚ) ^ (e - 52) = v)
    (hfin : |v| < 2 ^ 1024) : JSNum.round q = JSNum.fin v := by
  have h := roundQ_eq q e m hlo hhi he hm
  rw [hv] at h
  unfold JSNum.round
  rw [h, if_neg (not_le.mpr hfin)]

/-- The rounding of zero. -/
theorem round_zero : JSNum.round 0 = JSNum.fin 0 := by
  unfold JSNum.round
  rw [roundQ_zero]
  norm_num

/-! ## The draw rectangle -/

/-- The rounding of `0 + topOffset`. -/
theorem round_fifty : JSNum.round 50 = JSNum.fin 50 :=
  round_eval _ _ 5 7036874417766400 (by norm_num [le_abs]) (by norm_num [abs_lt])
    (by norm_num) (by norm_num [abs_lt]) (by norm_num) (by norm_num [abs_lt])

/-- The two context calls of `scaleImage` on an image of non-zero size, given the finite
results of its eight roundings. -/
theorem scaleImage_of_roundings (img : Image) (ctx : Context)
    (hw : img.width ≠ 0) (hh : img.height ≠ 0) (hr vr dw dh a cx b cy : ℚ)
    (h1 : JSNum.round ((ctx.canvas.width : ℚ) / img.width) = JSNum.fin hr)
    (h2 : JSNum.round ((ctx.canvas.height : ℚ) / img.height) = JSNum.fin vr)
    (h3 : JSNum.round ((img.width : ℚ) * max hr vr) = JSNum.fin dw)
    (h4 : JSNum.round ((img.height : ℚ) * max hr vr) = JSNum.fin dh)
    (h5 : JSNum.round ((ctx.canvas.width : ℚ) - dw) = JSNum.fin a)
    (h6 : JSNum.round (a / 2) = JSNum.fin cx)
    (h7 : JSNum.round ((ctx.canvas.height : ℚ) - dh) = JSNum.fin b)
    (h8 : JSNum.round (b / 2) = JSNum.fin cy) :
    scaleImage (some img) ctx =
      { canvas := ctx.canvas
        calls := ctx.calls ++
          [CtxCall.clearRect (JSNum.ofNat 0) (JSNum.ofNat 0) (JSNum.ofNat ctx.canvas.width)
              (JSNum.ofNat ctx.canvas.height),
            CtxCall.drawImage img (JSNum.ofNat 0) (JSNum.ofNat 0) (JSNum.ofNat img.width)
              (JSNum.ofNat img.height) (JSNum.fin cx) (JSNum.fin (if cy < 0 then 50 else cy))
              (JSNum.fin dw) (JSNum.fin dh)] } ∧
    computedShiftY ctx.canvas img = JSNum.fin cy := by
  have hw' : (img.width : ℚ) ≠ 0 := by exact_mod_cast hw
  have hh' : (img.height : ℚ) ≠ 0 := by exact_mod_cast hh
  have h2ne : ((2 : Nat) : ℚ) ≠ 0 := by norm_num
  have h6' : JSNum.round (a / ((2 : Nat) : ℚ)) = JSNum.fin cx := h6
  have h8' : JSNum.round (b / ((2 : Nat) : ℚ)) = JSNum.fin cy := h8
  have h50 : JSNum.round (((0 : Nat) : ℚ) + ((50 : Nat) : ℚ)) = JSNum.fin 50 := by
    have h : ((0 : Nat) : ℚ) + ((50 : Nat) : ℚ) = 50 := by norm_num
    rw [h]
    exact round_fifty
  have h0 : ((0 : Nat) : ℚ) = 0 := Nat.cast_zero
  constructor
  · simp only [scaleImage, JSNum.ofNat, JSNum.div, hw', hh', h2ne, if_false, h1, h2, JSNum.max,
      JSNum.mul, h3, h4, JSNum.sub, h5, h6', h7, h8', JSNum.lt, JSNum.add, h50,
      Context.clearRect, Context.drawImage, decide_eq_true_eq]
    rw [h0]
    split_ifs <;> simp
  · simp only [computedShiftY, JSNum.ofNat, JSNum.div, hw', hh', h2ne, if_false, h1, h2,
      JSNum.max, JSNum.mul, h4, JSNum.sub, h7, h8']

/-- Half the subnormal spacing is negligible. -/
theorem tiny_le : (2 : ℚ) ^ (-1075 : Int) ≤ 1 / 2 ^ 200 := by
  have h : (2 : ℚ) ^ (-1075 : Int) ≤ (2 : ℚ) ^ (-200 : Int) :=
    zpow_le_zpow_right₀ (by norm_num) (by norm_num)
  have h2 : (2 : ℚ) ^ (-200 : Int) = 1 / 2 ^ 200 := by norm_num
  rw [h2] at h
  exact h

/-- The rounding of a positive value in the normal range: finite, relative error `2^-53`. -/
theorem round_normal (q : ℚ) (hlo : 1 / 2 ^ 64 ≤ q) (hhi : q ≤ 2 ^ 99) :
    JSNum.round q = JSNum.fin (roundQ q) ∧
    q - q / 2 ^ 53 ≤ roundQ q ∧ roundQ q ≤ q + q / 2 ^ 53 := by
  have hpos : 0 < q := lt_of_lt_of_le (by norm_num) hlo
  have habs : |q| = q := abs_of_pos hpos
  have hn : (2 : ℚ) ^ (-1022 : Int) ≤ |q| := by
    have h : (2 : ℚ) ^ (-1022 : Int) ≤ (2 : ℚ) ^ (-64 : Int) :=
      zpow_le_zpow_right₀ (by norm_num) (by norm_num)
    have h2 : (2 : ℚ) ^ (-64 : Int) = 1 / 2 ^ 64 := by norm_num
    rw [habs]
    exact le_trans (le_of_le_of_eq h h2) hlo
  have herr := roundQ_err_normal q hn
  rw [habs, abs_le] at herr
  refine ⟨round_fin q ?_, by linarith [herr.1], by linarith [herr.2]⟩
  rw [habs]
  have : (2 : ℚ) ^ 99 ≤ 2 ^ 100 := by norm_num
  linarith

/-- The rounding of any value of bounded magnitude: finite, of the same sign, with relative
error `2^-53` up to a negligible absolute term. -/
theorem round_any (q : ℚ) (hq : |q| ≤ 2 ^ 99) :
    JSNum.round q = JSNum.fin (roundQ q) ∧
    |roundQ q - q| ≤ |q| / 2 ^ 53 + 1 / 2 ^ 200 ∧
    (0 ≤ q → 0 ≤ roundQ q) ∧ (q ≤ 0 → roundQ q ≤ 0) := by
  refine ⟨round_fin q ?_, le_trans (roundQ_err q) (by linarith [tiny_le]),
    roundQ_nonneg q, roundQ_nonpos q⟩
  have : (2 : ℚ) ^ 99 ≤ 2 ^ 100 := by norm_num
  linarith

/-- The ratio of one axis: `S / s` for sizes below `2^32`. -/
theorem ratio_bounds (S s : Nat) (hS : 0 < S) (hs : 0 < s) (bS : S < 2 ^ 32)
    (bs : s < 2 ^ 32) :
    JSNum.round ((S : ℚ) / s) = JSNum.fin (roundQ ((S : ℚ) / s)) ∧
    1 / 2 ^ 33 ≤ roundQ ((S : ℚ) / s) ∧ roundQ ((S : ℚ) / s) ≤ 2 ^ 33 ∧
    (S : ℚ) - S / 2 ^ 53 ≤ s * roundQ ((S : ℚ) / s) ∧
    (s : ℚ) * roundQ ((S : ℚ) / s) ≤ S + S / 2 ^ 53 := by
  have hS1 : (1 : ℚ) ≤ S := by exact_mod_cast hS
  have hs1 : (1 : ℚ) ≤ s := by exact_mod_cast hs
  have hS2 : (S : ℚ) ≤ 2 ^ 32 := by exact_mod_cast bS.le
  have hs2 : (s : ℚ) ≤ 2 ^ 32 := by exact_mod_cast bs.le
  have hs0 : (0 : ℚ) < s := by linarith
  have hlo : 1 / 2 ^ 32 ≤ (S : ℚ) / s := by
    rw [div_le_div_iff₀ (by norm_num) hs0]
    nlinarith
  have hhi : (S : ℚ) / s ≤ 2 ^ 32 := by
    rw [div_le_iff₀ hs0]
    nlinarith
  obtain ⟨h1, h2, h3⟩ := round_normal ((S : ℚ) / s) (by linarith [hlo]) (by linarith [hhi])
  have hmul : (s : ℚ) * ((S : ℚ) / s) = S := by field_simp
  have h2' := mul_le_mul_of_nonneg_left h2 hs0.le
  have h3' := mul_le_mul_of_nonneg_left h3 hs0.le
  have e2 : (s : ℚ) * ((S : ℚ) / s - (S : ℚ) / s / 2 ^ 53) = S - S / 2 ^ 53 := by
    linear_combination (1 - 1 / 2 ^ 53) * hmul
  have e3 : (s : ℚ) * ((S : ℚ) / s + (S : ℚ) / s / 2 ^ 53) = S + S / 2 ^ 53 := by
    linear_combination (1 + 1 / 2 ^ 53) * hmul
  rw [e2] at h2'
  rw [e3] at h3'
  refine ⟨h1, by linarith, by linarith, h2', h3'⟩

/-- The centring offset of one axis, `(S - d) / 2` in two roundings, for a drawn size `d` not
smaller than the surface size `S` beyond rounding. -/
theorem shift_bounds (S : Nat) (d : ℚ) (hS : 0 < S) (bS : S < 2 ^ 32)
    (hd : (S : ℚ) - S / 2 ^ 52 ≤ d) (bd : d ≤ 2 ^ 70) :
    JSNum.round ((S : ℚ) - d) = JSNum.fin (roundQ ((S : ℚ) - d)) ∧
    JSNum.round (roundQ ((S : ℚ) - d) / 2) = JSNum.fin (roundQ (roundQ ((S : ℚ) - d) / 2)) ∧
    roundQ (roundQ ((S : ℚ) - d) / 2) ≤ S / 2 ^ 52 ∧
    (S : ℚ) - S / 2 ^ 51 ≤ roundQ (roundQ ((S : ℚ) - d) / 2) + d := by
  have hS1 : (1 : ℚ) ≤ S := by exact_mod_cast hS
  have hS2 : (S : ℚ) ≤ 2 ^ 32 := by exact_mod_cast bS.le
  have hq1 : |(S : ℚ) - d| ≤ 2 ^ 71 := by
    rw [abs_le]
    constructor <;> linarith
  obtain ⟨r1, e1, p1, n1⟩ := round_any ((S : ℚ) - d) (by linarith)
  rcases le_total 0 ((S : ℚ) - d) with hpos | hneg
  · have f0 := p1 hpos
    rw [abs_of_nonneg hpos, abs_le] at e1
    have hq2 : |roundQ ((S : ℚ) - d) / 2| ≤ 2 ^ 99 := by
      rw [abs_le]
      constructor <;> linarith [e1.1, e1.2]
    obtain ⟨r2, e2, p2, n2⟩ := round_any (roundQ ((S : ℚ) - d) / 2) hq2
    have hq2pos : 0 ≤ roundQ ((S : ℚ) - d) / 2 := by linarith
    have c0 := p2 hq2pos
    rw [abs_of_nonneg hq2pos, abs_le] at e2
    refine ⟨r1, r2, ?_, by linarith⟩
    linarith [e1.2, e2.2]
  · have f0 := n1 hneg
    rw [abs_of_nonpos hneg, abs_le] at e1
    have hq2 : |roundQ ((S : ℚ) - d) / 2| ≤ 2 ^ 99 := by
      rw [abs_le]
      constructor <;> linarith [e1.1, e1.2]
    obtain ⟨r2, e2, p2, n2⟩ := round_any (roundQ ((S : ℚ) - d) / 2) hq2
    have hq2neg : roundQ ((S : ℚ) - d) / 2 ≤ 0 := by linarith
    have c0 := n2 hq2neg
    rw [abs_of_nonpos hq2neg, abs_le] at e2
    refine ⟨r1, r2, by linarith, ?_⟩
    linarith [e1.1, e2.1]

/-- What `scaleImage` draws for a loaded frame on a canvas, all four sizes positive and below
`2^32`: every intermediate value is finite, and the drawn rectangle contains the surface up to
the rounding of the doubles, except for the vertical offset when the computed one is
negative. -/
theorem scaleImage_bounds (img : Image) (ctx : Context)
    (hw : 0 < img.width) (hh : 0 < img.height)
    (hW : 0 < ctx.canvas.width) (hH : 0 < ctx.canvas.height)
    (bw : img.width < 2 ^ 32) (bh : img.height < 2 ^ 32)
    (bW : ctx.canvas.width < 2 ^ 32) (bH : ctx.canvas.height < 2 ^ 32) :
    ∃ dx dw dh cy : ℚ,
      scaleImage (some img) ctx =
        { canvas := ctx.canvas
          calls := ctx.calls ++
            [CtxCall.clearRect (JSNum.ofNat 0) (JSNum.ofNat 0) (JSNum.ofNat ctx.canvas.width)
                (JSNum.ofNat ctx.canvas.height),
              CtxCall.drawImage img (JSNum.ofNat 0) (JSNum.ofNat 0) (JSNum.ofNat img.width)
                (JSNum.ofNat img.height) (JSNum.fin dx)
                (JSNum.fin (if cy < 0 then 50 else cy)) (JSNum.fin dw) (JSNum.fin dh)] } ∧
      computedShiftY ctx.canvas img = JSNum.fin cy ∧
      dw = roundQ (img.width * max (roundQ ((ctx.canvas.width : ℚ) / img.width))
        (roundQ ((ctx.canvas.height : ℚ) / img.height))) ∧
      dh = roundQ (img.height * max (roundQ ((ctx.canvas.width : ℚ) / img.width))
        (roundQ ((ctx.canvas.height : ℚ) / img.height))) ∧
      dx = roundQ (roundQ ((ctx.canvas.width : ℚ) - dw) / 2) ∧
      (ctx.canvas.width : ℚ) - ctx.canvas.width / 2 ^ 52 ≤ dw ∧
      (ctx.canvas.height : ℚ) - ctx.canvas.height / 2 ^ 52 ≤ dh ∧
      (dw ≤ ctx.canvas.width + ctx.canvas.width / 2 ^ 51 ∨
        dh ≤ ctx.canvas.height + ctx.canvas.height / 2 ^ 51) ∧
      dx ≤ ctx.canvas.width / 2 ^ 52 ∧
      (ctx.canvas.width : ℚ) - ctx.canvas.width / 2 ^ 51 ≤ dx + dw ∧
      cy ≤ ctx.canvas.height / 2 ^ 52 ∧
      (ctx.canvas.height : ℚ) - ctx.canvas.height / 2 ^ 51 ≤ cy + dh := by
  obtain ⟨ra, alo, ahi, awlo, awhi⟩ :=
    ratio_bounds ctx.canvas.width img.width hW hw bW bw
  obtain ⟨rb, blo, bhi, bhlo, bhhi⟩ :=
    ratio_bounds ctx.canvas.height img.height hH hh bH bh
  generalize roundQ ((ctx.canvas.width : ℚ) / img.width) = hr at *
  generalize roundQ ((ctx.canvas.height : ℚ) / img.height) = vr at *
  have hw1 : (1 : ℚ) ≤ img.width := by exact_mod_cast hw
  have hh1 : (1 : ℚ) ≤ img.height := by exact_mod_cast hh
  have hw2 : (img.width : ℚ) ≤ 2 ^ 32 := by exact_mod_cast bw.le
  have hh2 : (img.height : ℚ) ≤ 2 ^ 32 := by exact_mod_cast bh.le
  have hW0 : (0 : ℚ) ≤ ctx.canvas.width := Nat.cast_nonneg _
  have hH0 : (0 : ℚ) ≤ ctx.canvas.height := Nat.cast_nonneg _
  have hW2 : (ctx.canvas.width : ℚ) ≤ 2 ^ 32 := by exact_mod_cast bW.le
  have hH2 : (ctx.canvas.height : ℚ) ≤ 2 ^ 32 := by exact_mod_cast bH.le
  have rlo : 1 / 2 ^ 33 ≤ max hr vr := le_trans alo (le_max_left _ _)
  have rhi : max hr vr ≤ 2 ^ 33 := max_le ahi bhi
  have rpos : 0 < max hr vr := lt_of_lt_of_le (by norm_num) rlo
  have e65 : (2 : ℚ) ^ 32 * 2 ^ 33 = 2 ^ 65 := by norm_num
  have e99 : (2 : ℚ) ^ 65 ≤ 2 ^ 99 := by norm_num
  have e64 : (1 : ℚ) / 2 ^ 64 ≤ 1 / 2 ^ 33 := by norm_num
  have p1lo : 1 / 2 ^ 64 ≤ (img.width : ℚ) * max hr vr :=
    le_trans (le_trans e64 rlo) (le_mul_of_one_le_left rpos.le hw1)
  have p2lo : 1 / 2 ^ 64 ≤ (img.height : ℚ) * max hr vr :=
    le_trans (le_trans e64 rlo) (le_mul_of_one_le_left rpos.le hh1)
  have p1hi' : (img.width : ℚ) * max hr vr ≤ 2 ^ 65 :=
    le_of_le_of_eq (mul_le_mul hw2 rhi rpos.le (by norm_num)) e65
  have p2hi' : (img.height : ℚ) * max hr vr ≤ 2 ^ 65 :=
    le_of_le_of_eq (mul_le_mul hh2 rhi rpos.le (by norm_num)) e65
  have p1hi : (img.width : ℚ) * max hr vr ≤ 2 ^ 99 := le_trans p1hi' e99
  have p2hi : (img.height : ℚ) * max hr vr ≤ 2 ^ 99 := le_trans p2hi' e99
  obtain ⟨r3, dwlo, dwhi⟩ := round_normal _ p1lo p1hi
  obtain ⟨r4, dhlo, dhhi⟩ := round_normal _ p2lo p2hi
  have q1 : (img.width : ℚ) * hr ≤ img.width * max hr vr :=
    mul_le_mul_of_nonneg_left (le_max_left _ _) (by linarith)
  have q2 : (img.height : ℚ) * vr ≤ img.height * max hr vr :=
    mul_le_mul_of_nonneg_left (le_max_right _ _) (by linarith)
  have gw : (ctx.canvas.width : ℚ) - ctx.canvas.width / 2 ^ 52
      ≤ roundQ (img.width * max hr vr) := by linarith
  have gh : (ctx.canvas.height : ℚ) - ctx.canvas.height / 2 ^ 52
      ≤ roundQ (img.height * max hr vr) := by linarith
  obtain ⟨r5, r6, cxhi, cxlo⟩ :=
    shift_bounds ctx.canvas.width (roundQ (img.width * max hr vr)) hW bW gw (by linarith)
  obtain ⟨r7, r8, cyhi, cylo⟩ :=
    shift_bounds ctx.canvas.height (roundQ (img.height * max hr vr)) hH bH gh (by linarith)
  obtain ⟨hcalls, hshift⟩ := scaleImage_of_roundings img ctx hw.ne' hh.ne' hr vr _ _ _ _ _ _
    ra rb r3 r4 r5 r6 r7 r8
  refine ⟨_, _, _, _, hcalls, hshift, rfl, rfl, rfl, gw, gh, ?_, cxhi, cxlo, cyhi, cylo⟩
  rcases le_total vr hr with hle | hle
  · left
    rw [max_eq_left hle] at dwhi ⊢
    linarith
  · right
    rw [max_eq_right hle] at dhhi ⊢
    linarith

/-- The doubles of `scaleImage` for a 1280 x 720 frame on a 428 x 926 canvas: the scaled height
is 926.0000000000001, the computed vertical offset is `-2^-44`, and the offset passed is 50. -/
theorem scaleImage_at_428x926 :
    (scaleImage (some { index := 0, state := LoadState.loaded 1280 720 })
        { canvas := { width := 428, height := 926 }, calls := [] }).calls =
      [CtxCall.clearRect (JSNum.fin 0) (JSNum.fin 0) (JSNum.fin 428) (JSNum.fin 926),
        CtxCall.drawImage { index := 0, state := LoadState.loaded 1280 720 }
          (JSNum.fin 0) (JSNum.fin 0) (JSNum.fin 1280) (JSNum.fin 720)
          (JSNum.fin (-5357797994193807 / 2 ^ 43)) (JSNum.fin 50)
          (JSNum.fin (7240161900946319 / 2 ^ 42))
          (JSNum.fin (8145182138564609 / 2 ^ 43))] ∧
    computedShiftY { width := 428, height := 926 }
        { index := 0, state := LoadState.loaded 1280 720 } =
      JSNum.fin (-1 / 2 ^ 44) := by
  have h1 : JSNum.round ((428 : ℚ) / 1280) =
      JSNum.fin (3011782250804019 / 2 ^ 53) :=
    round_eval _ _ (-2) 6023564501608038 (by norm_num [le_abs]) (by norm_num [abs_lt])
      (by norm_num) (by norm_num [abs_lt]) (by norm_num) (by norm_num [abs_lt])
  have h2 : JSNum.round ((926 : ℚ) / 720) =
      JSNum.fin (5792129520757055 / 2 ^ 52) :=
    round_eval _ _ 0 5792129520757055 (by norm_num [le_abs]) (by norm_num [abs_lt])
      (by norm_num) (by norm_num [abs_lt]) (by norm_num) (by norm_num [abs_lt])
  have h3 : JSNum.round ((1280 : ℚ) * max (3011782250804019 / 2 ^ 53) (5792129520757055 / 2 ^ 52)) =
      JSNum.fin (7240161900946319 / 2 ^ 42) := by
    have hq : ((1280 : ℚ) * max (3011782250804019 / 2 ^ 53) (5792129520757055 / 2 ^ 52)) =
        (28960647603785275 / 2 ^ 44) := by norm_num
    rw [hq]
    exact round_eval _ _ 10 7240161900946319 (by norm_num [le_abs]) (by norm_num [abs_lt])
      (by norm_num) (by norm_num [abs_lt]) (by norm_num) (by norm_num [abs_lt])
  have h4 : JSNum.round ((720 : ℚ) * max (3011782250804019 / 2 ^ 53) (5792129520757055 / 2 ^ 52)) =
      JSNum.fin (8145182138564609 / 2 ^ 43) := by
    have hq : ((720 : ℚ) * max (3011782250804019 / 2 ^ 53) (5792129520757055 / 2 ^ 52)) =
        (260645828434067475 / 2 ^ 48) := by norm_num
    rw [hq]
    exact round_eval _ _ 9 8145182138564609 (by norm_num [le_abs]) (by norm_num [abs_lt])
      (by norm_num) (by norm_num [abs_lt]) (by norm_num) (by norm_num [abs_lt])
  have h5 : JSNum.round ((428 : ℚ) - (7240161900946319 / 2 ^ 42)) =
      JSNum.fin (-5357797994193807 / 2 ^ 42) :=
    round_eval _ _ 10 (-5357797994193807) (by norm_num [le_abs]) (by norm_num [abs_lt])
      (by norm_num) (by norm_num [abs_lt]) (by norm_num) (by norm_num [abs_lt])
  have h6 : JSNum.round (((-5357797994193807 / 2 ^ 42) : ℚ) / 2) =
      JSNum.fin (-5357797994193807 / 2 ^ 43) :=
    round_eval _ _ 9 (-5357797994193807) (by norm_num [le_abs]) (by norm_num [abs_lt])
      (by norm_num) (by norm_num [abs_lt]) (by norm_num) (by norm_num [abs_lt])
  have h7 : JSNum.round ((926 : ℚ) - (8145182138564609 / 2 ^ 43)) =
      JSNum.fin (-1 / 2 ^ 43) :=
    round_eval _ _ (-43) (-4503599627370496) (by norm_num [le_abs]) (by norm_num [abs_lt])
      (by norm_num) (by norm_num [abs_lt]) (by norm_num) (by norm_num [abs_lt])
  have h8 : JSNum.round (((-1 / 2 ^ 43) : ℚ) / 2) =
      JSNum.fin (-1 / 2 ^ 44) :=
    round_eval _ _ (-44) (-4503599627370496) (by norm_num [le_abs]) (by norm_num [abs_lt])
      (by norm_num) (by norm_num [abs_lt]) (by norm_num) (by norm_num [abs_lt])
  obtain ⟨hcalls, hshift⟩ := scaleImage_of_roundings
    { index := 0, state := LoadState.loaded 1280 720 }
    { canvas := { width := 428, height := 926 }, calls := [] } (by decide) (by decide)
    _ _ _ _ _ _ _ _ h1 h2 h3 h4 h5 h6 h7 h8
  refine ⟨?_, hshift⟩
  rw [hcalls]
  norm_num [JSNum.ofNat, Image.width, Image.height]

/-- The doubles of `scaleImage` for an 853 x 480 frame on a 360 x 490 canvas: the scaled height
is 489.99999999999994 and the vertical offset passed is `2^-45`. -/
theorem scaleImage_at_360x490 :
    (scaleImage (some { index := 0, state := LoadState.loaded 853 480 })
        { canvas := { width := 360, height := 490 }, calls := [] }).calls =
      [CtxCall.clearRect (JSNum.fin 0) (JSNum.fin 0) (JSNum.fin 360) (JSNum.fin 490),
        CtxCall.drawImage { index := 0, state := LoadState.loaded 853 480 }
          (JSNum.fin 0) (JSNum.fin 0) (JSNum.fin 853) (JSNum.fin 480)
          (JSNum.fin (-2246393881515349 / 2 ^ 43)) (JSNum.fin (1 / 2 ^ 45))
          (JSNum.fin (3829690625512789 / 2 ^ 42))
          (JSNum.fin (8620171161763839 / 2 ^ 44))] ∧
    computedShiftY { width := 360, height := 490 }
        { index := 0, state := LoadState.loaded 853 480 } =
      JSNum.fin (1 / 2 ^ 45) := by
  have h1 : JSNum.round ((360 : ℚ) / 853) =
      JSNum.fin (7602794212677039 / 2 ^ 54) :=
    round_eval _ _ (-2) 7602794212677039 (by norm_num [le_abs]) (by norm_num [abs_lt])
      (by norm_num) (by norm_num [abs_lt]) (by norm_num) (by norm_num [abs_lt])
  have h2 : JSNum.round ((490 : ℚ) / 480) =
      JSNum.fin (4597424619607381 / 2 ^ 52) :=
    round_eval _ _ 0 4597424619607381 (by norm_num [le_abs]) (by norm_num [abs_lt])
      (by norm_num) (by norm_num [abs_lt]) (by norm_num) (by norm_num [abs_lt])
  have h3 : JSNum.round ((853 : ℚ) * max (7602794212677039 / 2 ^ 54) (4597424619607381 / 2 ^ 52)) =
      JSNum.fin (3829690625512789 / 2 ^ 42) := by
    have hq : ((853 : ℚ) * max (7602794212677039 / 2 ^ 54) (4597424619607381 / 2 ^ 52)) =
        (3921603200525095993 / 2 ^ 52) := by norm_num
    rw [hq]
    exact round_eval _ _ 9 7659381251025578 (by norm_num [le_abs]) (by norm_num [abs_lt])
      (by norm_num) (by norm_num [abs_lt]) (by norm_num) (by norm_num [abs_lt])
  have h4 : JSNum.round ((480 : ℚ) * max (7602794212677039 / 2 ^ 54) (4597424619607381 / 2 ^ 52)) =
      JSNum.fin (8620171161763839 / 2 ^ 44) := by
    have hq : ((480 : ℚ) * max (7602794212677039 / 2 ^ 54) (4597424619607381 / 2 ^ 52)) =
        (68961369294110715 / 2 ^ 47) := by norm_num
    rw [hq]
    exact round_eval _ _ 8 8620171161763839 (by norm_num [le_abs]) (by norm_num [abs_lt])
      (by norm_num) (by norm_num [abs_lt]) (by norm_num) (by norm_num [abs_lt])
  have h5 : JSNum.round ((360 : ℚ) - (3829690625512789 / 2 ^ 42)) =
      JSNum.fin (-2246393881515349 / 2 ^ 42) :=
    round_eval _ _ 8 (-8985575526061396) (by norm_num [le_abs]) (by norm_num [abs_lt])
      (by norm_num) (by norm_num [abs_lt]) (by norm_num) (by norm_num [abs_lt])
  have h6 : JSNum.round (((-2246393881515349 / 2 ^ 42) : ℚ) / 2) =
      JSNum.fin (-2246393881515349 / 2 ^ 43) :=
    round_eval _ _ 7 (-8985575526061396) (by norm_num [le_abs]) (by norm_num [abs_lt])
      (by norm_num) (by norm_num [abs_lt]) (by norm_num) (by norm_num [abs_lt])
  have h7 : JSNum.round ((490 : ℚ) - (8620171161763839 / 2 ^ 44)) =
      JSNum.fin (1 / 2 ^ 44) :=
    round_eval _ _ (-44) 4503599627370496 (by norm_num [le_abs]) (by norm_num [abs_lt])
      (by norm_num) (by norm_num [abs_lt]) (by norm_num) (by norm_num [abs_lt])
  have h8 : JSNum.round (((1 / 2 ^ 44) : ℚ) / 2) =
      JSNum.fin (1 / 2 ^ 45) :=
    round_eval _ _ (-45) 4503599627370496 (by norm_num [le_abs]) (by norm_num [abs_lt])
      (by norm_num) (by norm_num [abs_lt]) (by norm_num) (by norm_num [abs_lt])
  obtain ⟨hcalls, hshift⟩ := scaleImage_of_roundings
    { index := 0, state := LoadState.loaded 853 480 }
    { canvas := { width := 360, height := 490 }, calls := [] } (by decide) (by decide)
    _ _ _ _ _ _ _ _ h1 h2 h3 h4 h5 h6 h7 h8
  refine ⟨?_, hshift⟩
  rw [hcalls]
  norm_num [JSNum.ofNat, Image.width, Image.height]

/-- C4: for a loaded frame (`w, h > 0`) the vertical offset `scaleImage` passes to `drawImage`
is the constant 50 when the computed centring offset `(H - h*ratio)/2` is negative, whatever
its magnitude, and the computed offset itself otherwise; it is never negative. -/
theorem scaleImage_vertical_offset (img : Image) (ctx : Context)
    (hw : 0 < img.width) (hh : 0 < img.height) :
    ∃ dx dy dw dh : JSNum,
      (scaleImage (some img) ctx).calls = ctx.calls ++
        [CtxCall.clearRect (JSNum.ofNat 0) (JSNum.ofNat 0) (JSNum.ofNat ctx.canvas.width)
            (JSNum.ofNat ctx.canvas.height),
          CtxCall.drawImage img (JSNum.ofNat 0) (JSNum.ofNat 0) (JSNum.ofNat img.width)
            (JSNum.ofNat img.height) dx dy dw dh] ∧
      (JSNum.lt (computedShiftY ctx.canvas img) (JSNum.ofNat 0) = true →
        dy = JSNum.ofNat 50) ∧
      (JSNum.lt (computedShiftY ctx.canvas img) (JSNum.ofNat 0) = false →
        dy = computedShiftY ctx.canvas img) ∧
      JSNum.lt dy (JSNum.ofNat 0) = false := by
  have hw' : (img.width : ℚ) ≠ 0 := by exact_mod_cast hw.ne'
  have hh' : (img.height : ℚ) ≠ 0 := by exact_mod_cast hh.ne'
  have h50 : JSNum.add (JSNum.ofNat 0) (JSNum.ofNat 50) = JSNum.ofNat 50 := by
    simp only [JSNum.add, JSNum.ofNat]
    have h : ((0 : Nat) : ℚ) + ((50 : Nat) : ℚ) = 50 := by norm_num
    rw [h, round_fifty]
    norm_num
  have hcalls : (scaleImage (some img) ctx).calls = ctx.calls ++
      [CtxCall.clearRect (JSNum.ofNat 0) (JSNum.ofNat 0) (JSNum.ofNat ctx.canvas.width)
          (JSNum.ofNat ctx.canvas.height),
        CtxCall.drawImage img (JSNum.ofNat 0) (JSNum.ofNat 0) (JSNum.ofNat img.width)
          (JSNum.ofNat img.height)
          (JSNum.div (JSNum.sub (JSNum.ofNat ctx.canvas.width)
            (JSNum.mul (JSNum.ofNat img.width)
              (JSNum.max (JSNum.div (JSNum.ofNat ctx.canvas.width) (JSNum.ofNat img.width))
                (JSNum.div (JSNum.ofNat ctx.canvas.height) (JSNum.ofNat img.height)))))
            (JSNum.ofNat 2))
          (if JSNum.lt (computedShiftY ctx.canvas img) (JSNum.ofNat 0) = true
            then JSNum.ofNat 50 else computedShiftY ctx.canvas img)
          (JSNum.mul (JSNum.ofNat img.width)
            (JSNum.max (JSNum.div (JSNum.ofNat ctx.canvas.width) (JSNum.ofNat img.width))
              (JSNum.div (JSNum.ofNat ctx.canvas.height) (JSNum.ofNat img.height))))
          (JSNum.mul (JSNum.ofNat img.height)
            (JSNum.max (JSNum.div (JSNum.ofNat ctx.canvas.width) (JSNum.ofNat img.width))
              (JSNum.div (JSNum.ofNat ctx.canvas.height) (JSNum.ofNat img.height))))] := by
    rw [← h50]
    simp [scaleImage, computedShiftY, Context.clearRect, Context.drawImage]
  refine ⟨_, _, _, _, hcalls, ?_, ?_, ?_⟩
  · intro hlt
    rw [if_pos hlt]
  · intro hge
    rw [hge]
    simp
  · cases hlt : JSNum.lt (computedShiftY ctx.canvas img) (JSNum.ofNat 0)
    · simp [hlt]
    · simp only [if_true]
      norm_num [JSNum.lt, JSNum.ofNat]

/-- Witness of C4: the 1280 x 720 frame on a 428 x 926 canvas, where the computed offset is
`-2^-44` and the offset passed is 50. -/
theorem scaleImage_vertical_offset_witness :
    ∃ dx dy dw dh : JSNum,
      (scaleImage (some { index := 0, state := LoadState.loaded 1280 720 })
          { canvas := { width := 428, height := 926 }, calls := [] }).calls = [] ++
        [CtxCall.clearRect (JSNum.ofNat 0) (JSNum.ofNat 0) (JSNum.ofNat (428 : Nat))
            (JSNum.ofNat (926 : Nat)),
          CtxCall.drawImage { index := 0, state := LoadState.loaded 1280 720 }
            (JSNum.ofNat 0) (JSNum.ofNat 0) (JSNum.ofNat (1280 : Nat))
            (JSNum.ofNat (720 : Nat)) dx dy dw dh] ∧
      (JSNum.lt (computedShiftY { width := 428, height := 926 }
          { index := 0, state := LoadState.loaded 1280 720 }) (JSNum.ofNat 0) = true →
        dy = JSNum.ofNat 50) ∧
      (JSNum.lt (computedShiftY { width := 428, height := 926 }
          { index := 0, state := LoadState.loaded 1280 720 }) (JSNum.ofNat 0) = false →
        dy = computedShiftY { width := 428, height := 926 }
          { index := 0, state := LoadState.loaded 1280 720 }) ∧
      JSNum.lt dy (JSNum.ofNat 0) = false :=
  scaleImage_vertical_offset { index := 0, state := LoadState.loaded 1280 720 }
    { canvas := { width := 428, height := 926 }, calls := [] } (by decide) (by decide)

/-- C10, as stated, fails: for a loaded 854 x 480 frame on a 1912 x 948 canvas the doubles give
`w*ratio = 1911.9999999999998 < W` and `centerShift_x = 2^-43 > 0`. -/
theorem scaleImage_spans_width_counterexample :
    (scaleImage (some { index := 0, state := LoadState.loaded 854 480 })
        { canvas := { width := 1912, height := 948 }, calls := [] }).calls =
      [CtxCall.clearRect (JSNum.fin 0) (JSNum.fin 0) (JSNum.fin 1912) (JSNum.fin 948),
        CtxCall.drawImage { index := 0, state := LoadState.loaded 854 480 }
          (JSNum.fin 0) (JSNum.fin 0) (JSNum.fin 854) (JSNum.fin 480)
          (JSNum.fin (1 / 2 ^ 43)) (JSNum.fin 50)
          (JSNum.fin (8409064929230847 / 2 ^ 42))
          (JSNum.fin (1181601629400119 / 2 ^ 40))] ∧
    computedShiftY { width := 1912, height := 948 }
        { index := 0, state := LoadState.loaded 854 480 } =
      JSNum.fin (-139264606268471 / 2 ^ 41) ∧
    ((8409064929230847 / 2 ^ 42) : ℚ) < 1912 ∧ (0 : ℚ) < (1 / 2 ^ 43) := by
  have h1 : JSNum.round ((1912 : ℚ) / 854) =
      JSNum.fin (1260375071360127 / 2 ^ 49) :=
    round_eval _ _ 1 5041500285440508 (by norm_num [le_abs]) (by norm_num [abs_lt])
      (by norm_num) (by norm_num [abs_lt]) (by norm_num) (by norm_num [abs_lt])
  have h2 : JSNum.round ((948 : ℚ) / 480) =
      JSNum.fin (4447304632028365 / 2 ^ 51) :=
    round_eval _ _ 0 8894609264056730 (by norm_num [le_abs]) (by norm_num [abs_lt])
      (by norm_num) (by norm_num [abs_lt]) (by norm_num) (by norm_num [abs_lt])
  have h3 : JSNum.round ((854 : ℚ) * max (1260375071360127 / 2 ^ 49) (4447304632028365 / 2 ^ 51)) =
      JSNum.fin (8409064929230847 / 2 ^ 42) := by
    have hq : ((854 : ℚ) * max (1260375071360127 / 2 ^ 49) (4447304632028365 / 2 ^ 51)) =
        (538180155470774229 / 2 ^ 48) := by norm_num
    rw [hq]
    exact round_eval _ _ 10 8409064929230847 (by norm_num [le_abs]) (by norm_num [abs_lt])
      (by norm_num) (by norm_num [abs_lt]) (by norm_num) (by norm_num [abs_lt])
  have h4 : JSNum.round ((480 : ℚ) * max (1260375071360127 / 2 ^ 49) (4447304632028365 / 2 ^ 51)) =
      JSNum.fin (1181601629400119 / 2 ^ 40) := by
    have hq : ((480 : ℚ) * max (1260375071360127 / 2 ^ 49) (4447304632028365 / 2 ^ 51)) =
        (18905626070401905 / 2 ^ 44) := by norm_num
    rw [hq]
    exact round_eval _ _ 10 4726406517600476 (by norm_num [le_abs]) (by norm_num [abs_lt])
      (by norm_num) (by norm_num [abs_lt]) (by norm_num) (by norm_num [abs_lt])
  have h5 : JSNum.round ((1912 : ℚ) - (8409064929230847 / 2 ^ 42)) =
      JSNum.fin (1 / 2 ^ 42) :=
    round_eval _ _ (-42) 4503599627370496 (by norm_num [le_abs]) (by norm_num [abs_lt])
      (by norm_num) (by norm_num [abs_lt]) (by norm_num) (by norm_num [abs_lt])
  have h6 : JSNum.round (((1 / 2 ^ 42) : ℚ) / 2) =
      JSNum.fin (1 / 2 ^ 43) :=
    round_eval _ _ (-43) 4503599627370496 (by norm_num [le_abs]) (by norm_num [abs_lt])
      (by norm_num) (by norm_num [abs_lt]) (by norm_num) (by norm_num [abs_lt])
  have h7 : JSNum.round ((948 : ℚ) - (1181601629400119 / 2 ^ 40)) =
      JSNum.fin (-139264606268471 / 2 ^ 40) :=
    round_eval _ _ 6 (-8912934801182144) (by norm_num [le_abs]) (by norm_num [abs_lt])
      (by norm_num) (by norm_num [abs_lt]) (by norm_num) (by norm_num [abs_lt])
  have h8 : JSNum.round (((-139264606268471 / 2 ^ 40) : ℚ) / 2) =
      JSNum.fin (-139264606268471 / 2 ^ 41) :=
    round_eval _ _ 5 (-8912934801182144) (by norm_num [le_abs]) (by norm_num [abs_lt])
      (by norm_num) (by norm_num [abs_lt]) (by norm_num) (by norm_num [abs_lt])
  obtain ⟨hcalls, hshift⟩ := scaleImage_of_roundings
    { index := 0, state := LoadState.loaded 854 480 }
    { canvas := { width := 1912, height := 948 }, calls := [] } (by decide) (by decide)
    _ _ _ _ _ _ _ _ h1 h2 h3 h4 h5 h6 h7 h8
  refine ⟨?_, hshift, by norm_num, by norm_num⟩
  rw [hcalls]
  norm_num [JSNum.ofNat, Image.width, Image.height]

/-- C10, amended: for a loaded frame and a canvas, all four sizes positive and below `2^32`,
with `ratio = max(W/w, H/h)` in doubles, the drawn size satisfies `w*ratio ≥ W` and
`h*ratio ≥ H` up to a relative `2^-52`, one of the two exceeds the surface size by at most a
relative `2^-51`, the horizontal offset `(W - w*ratio)/2` is at most `W * 2^-52`, and the drawn
rectangle reaches the right edge of the surface up to a relative `2^-51`. -/
theorem scaleImage_spans_width (img : Image) (ctx : Context)
    (hw : 0 < img.width) (hh : 0 < img.height)
    (hW : 0 < ctx.canvas.width) (hH : 0 < ctx.canvas.height)
    (bw : img.width < 2 ^ 32) (bh : img.height < 2 ^ 32)
    (bW : ctx.canvas.width < 2 ^ 32) (bH : ctx.canvas.height < 2 ^ 32) :
    ∃ (dx dw dh : ℚ) (dy : JSNum),
      (scaleImage (some img) ctx).calls = ctx.calls ++
        [CtxCall.clearRect (JSNum.ofNat 0) (JSNum.ofNat 0) (JSNum.ofNat ctx.canvas.width)
            (JSNum.ofNat ctx.canvas.height),
          CtxCall.drawImage img (JSNum.ofNat 0) (JSNum.ofNat 0) (JSNum.ofNat img.width)
            (JSNum.ofNat img.height) (JSNum.fin dx) dy (JSNum.fin dw) (JSNum.fin dh)] ∧
      dw = roundQ (img.width * max (roundQ ((ctx.canvas.width : ℚ) / img.width))
        (roundQ ((ctx.canvas.height : ℚ) / img.height))) ∧
      dh = roundQ (img.height * max (roundQ ((ctx.canvas.width : ℚ) / img.width))
        (roundQ ((ctx.canvas.height : ℚ) / img.height))) ∧
      dx = roundQ (roundQ ((ctx.canvas.width : ℚ) - dw) / 2) ∧
      (ctx.canvas.width : ℚ) - ctx.canvas.width / 2 ^ 52 ≤ dw ∧
      (ctx.canvas.height : ℚ) - ctx.canvas.height / 2 ^ 52 ≤ dh ∧
      (dw ≤ ctx.canvas.width + ctx.canvas.width / 2 ^ 51 ∨
        dh ≤ ctx.canvas.height + ctx.canvas.height / 2 ^ 51) ∧
      dx ≤ ctx.canvas.width / 2 ^ 52 ∧
      (ctx.canvas.width : ℚ) - ctx.canvas.width / 2 ^ 51 ≤ dx + dw := by
  obtain ⟨dx, dw, dh, cy, hcalls, _, hdw, hdh, hdx, gw, gh, htight, cxhi, cxlo, _, _⟩ :=
    scaleImage_bounds img ctx hw hh hW hH bw bh bW bH
  refine ⟨dx, dw, dh, JSNum.fin (if cy < 0 then 50 else cy), ?_, hdw, hdh, hdx, gw, gh,
    htight, cxhi, cxlo⟩
  rw [hcalls]

/-- Witness of C10 amended: the 854 x 480 frame on a 1912 x 948 canvas. -/
theorem scaleImage_spans_width_witness :
    ∃ (dx dw dh : ℚ) (dy : JSNum),
      (scaleImage (some { index := 0, state := LoadState.loaded 854 480 })
          { canvas := { width := 1912, height := 948 }, calls := [] }).calls = [] ++
        [CtxCall.clearRect (JSNum.ofNat 0) (JSNum.ofNat 0) (JSNum.ofNat (1912 : Nat))
            (JSNum.ofNat (948 : Nat)),
          CtxCall.drawImage { index := 0, state := LoadState.loaded 854 480 }
            (JSNum.ofNat 0) (JSNum.ofNat 0) (JSNum.ofNat (854 : Nat))
            (JSNum.ofNat (480 : Nat)) (JSNum.fin dx) dy (JSNum.fin dw) (JSNum.fin dh)] ∧
      dw = roundQ ((854 : Nat) * max (roundQ (((1912 : Nat) : ℚ) / (854 : Nat)))
        (roundQ (((948 : Nat) : ℚ) / (480 : Nat)))) ∧
      dh = roundQ ((480 : Nat) * max (roundQ (((1912 : Nat) : ℚ) / (854 : Nat)))
        (roundQ (((948 : Nat) : ℚ) / (480 : Nat)))) ∧
      dx = roundQ (roundQ (((1912 : Nat) : ℚ) - dw) / 2) ∧
      ((1912 : Nat) : ℚ) - (1912 : Nat) / 2 ^ 52 ≤ dw ∧
      ((948 : Nat) : ℚ) - (948 : Nat) / 2 ^ 52 ≤ dh ∧
      (dw ≤ (1912 : Nat) + (1912 : Nat) / 2 ^ 51 ∨
        dh ≤ (948 : Nat) + (948 : Nat) / 2 ^ 51) ∧
      dx ≤ (1912 : Nat) / 2 ^ 52 ∧
      ((1912 : Nat) : ℚ) - (1912 : Nat) / 2 ^ 51 ≤ dx + dw :=
  scaleImage_spans_width { index := 0, state := LoadState.loaded 854 480 }
    { canvas := { width := 1912, height := 948 }, calls := [] }
    (by decide) (by decide) (by decide) (by decide)
    (by decide) (by decide) (by decide) (by decide)

/-- C3, as stated, fails: a loaded square 1024 x 1024 frame on a 2048 x 1024 surface is drawn
at `(0, 50)` with size 2048 x 2048, so the rows above `y = 50` are not covered. -/
theorem scaleImage_cover_counterexample :
    (scaleImage (some { index := 0, state := LoadState.loaded 1024 1024 })
        { canvas := { width := 2048, height := 1024 }, calls := [] }).calls =
      [CtxCall.clearRect (JSNum.fin 0) (JSNum.fin 0) (JSNum.fin 2048) (JSNum.fin 1024),
        CtxCall.drawImage { index := 0, state := LoadState.loaded 1024 1024 }
          (JSNum.fin 0) (JSNum.fin 0) (JSNum.fin 1024) (JSNum.fin 1024)
          (JSNum.fin 0) (JSNum.fin 50)
          (JSNum.fin 2048)
          (JSNum.fin 2048)] ∧
    computedShiftY { width := 2048, height := 1024 }
        { index := 0, state := LoadState.loaded 1024 1024 } =
      JSNum.fin (-512) ∧
    coversSurface { width := 2048, height := 1024 }
      (CtxCall.drawImage { index := 0, state := LoadState.loaded 1024 1024 }
          (JSNum.fin 0) (JSNum.fin 0) (JSNum.fin 1024) (JSNum.fin 1024)
          (JSNum.fin 0) (JSNum.fin 50)
          (JSNum.fin 2048)
          (JSNum.fin 2048)) = false := by
  have h1 : JSNum.round ((2048 : ℚ) / 1024) =
      JSNum.fin 2 :=
    round_eval _ _ 1 4503599627370496 (by norm_num [le_abs]) (by norm_num [abs_lt])
      (by norm_num) (by norm_num [abs_lt]) (by norm_num) (by norm_num [abs_lt])
  have h2 : JSNum.round ((1024 : ℚ) / 1024) =
      JSNum.fin 1 :=
    round_eval _ _ 0 4503599627370496 (by norm_num [le_abs]) (by norm_num [abs_lt])
      (by norm_num) (by norm_num [abs_lt]) (by norm_num) (by norm_num [abs_lt])
  have h3 : JSNum.round ((1024 : ℚ) * max 2 1) =
      JSNum.fin 2048 := by
    have hq : ((1024 : ℚ) * max 2 1) =
        2048 := by norm_num
    rw [hq]
    exact round_eval _ _ 11 4503599627370496 (by norm_num [le_abs]) (by norm_num [abs_lt])
      (by norm_num) (by norm_num [abs_lt]) (by norm_num) (by norm_num [abs_lt])
  have h4 : JSNum.round ((1024 : ℚ) * max 2 1) =
      JSNum.fin 2048 := by
    have hq : ((1024 : ℚ) * max 2 1) =
        2048 := by norm_num
    rw [hq]
    exact round_eval _ _ 11 4503599627370496 (by norm_num [le_abs]) (by norm_num [abs_lt])
      (by norm_num) (by norm_num [abs_lt]) (by norm_num) (by norm_num [abs_lt])
  have h5 : JSNum.round ((2048 : ℚ) - 2048) =
      JSNum.fin 0 := by
    have hq : ((2048 : ℚ) - 2048) = 0 := by norm_num
    rw [hq]; exact round_zero
  have h6 : JSNum.round ((0 : ℚ) / 2) =
      JSNum.fin 0 := by
    have hq : ((0 : ℚ) / 2) = 0 := by norm_num
    rw [hq]; exact round_zero
  have h7 : JSNum.round ((1024 : ℚ) - 2048) =
      JSNum.fin (-1024) :=
    round_eval _ _ 10 (-4503599627370496) (by norm_num [le_abs]) (by norm_num [abs_lt])
      (by norm_num) (by norm_num [abs_lt]) (by norm_num) (by norm_num [abs_lt])
  have h8 : JSNum.round (((-1024) : ℚ) / 2) =
      JSNum.fin (-512) :=
    round_eval _ _ 9 (-4503599627370496) (by norm_num [le_abs]) (by norm_num [abs_lt])
      (by norm_num) (by norm_num [abs_lt]) (by norm_num) (by norm_num [abs_lt])
  obtain ⟨hcalls, hshift⟩ := scaleImage_of_roundings
    { index := 0, state := LoadState.loaded 1024 1024 }
    { canvas := { width := 2048, height := 1024 }, calls := [] } (by decide) (by decide)
    _ _ _ _ _ _ _ _ h1 h2 h3 h4 h5 h6 h7 h8
  refine ⟨?_, hshift, by norm_num [coversSurface]⟩
  rw [hcalls]
  norm_num [JSNum.ofNat, Image.width, Image.height]

/-- C3, amended: for a loaded frame and a surface, all four sizes positive and below `2^32`,
`scaleImage` draws a rectangle of size `(w*ratio, h*ratio)` with `ratio = max(W/w, H/h)` in
doubles, not smaller than the surface up to a relative `2^-52`, and spanning the width of the
surface up to a relative `2^-51`. When the vertical offset it computes, `(H - h*ratio)/2`, is
not negative, the rectangle also spans the height of the surface up to a relative `2^-51`;
when it is negative the rectangle starts at `y = 50`. -/
theorem scaleImage_cover (img : Image) (ctx : Context)
    (hw : 0 < img.width) (hh : 0 < img.height)
    (hW : 0 < ctx.canvas.width) (hH : 0 < ctx.canvas.height)
    (bw : img.width < 2 ^ 32) (bh : img.height < 2 ^ 32)
    (bW : ctx.canvas.width < 2 ^ 32) (bH : ctx.canvas.height < 2 ^ 32) :
    ∃ dx dy dw dh cy : ℚ,
      (scaleImage (some img) ctx).calls = ctx.calls ++
        [CtxCall.clearRect (JSNum.ofNat 0) (JSNum.ofNat 0) (JSNum.ofNat ctx.canvas.width)
            (JSNum.ofNat ctx.canvas.height),
          CtxCall.drawImage img (JSNum.ofNat 0) (JSNum.ofNat 0) (JSNum.ofNat img.width)
            (JSNum.ofNat img.height) (JSNum.fin dx) (JSNum.fin dy) (JSNum.fin dw)
            (JSNum.fin dh)] ∧
      computedShiftY ctx.canvas img = JSNum.fin cy ∧
      dw = roundQ (img.width * max (roundQ ((ctx.canvas.width : ℚ) / img.width))
        (roundQ ((ctx.canvas.height : ℚ) / img.height))) ∧
      dh = roundQ (img.height * max (roundQ ((ctx.canvas.width : ℚ) / img.width))
        (roundQ ((ctx.canvas.height : ℚ) / img.height))) ∧
      (ctx.canvas.width : ℚ) - ctx.canvas.width / 2 ^ 52 ≤ dw ∧
      (ctx.canvas.height : ℚ) - ctx.canvas.height / 2 ^ 52 ≤ dh ∧
      dx ≤ ctx.canvas.width / 2 ^ 52 ∧
      (ctx.canvas.width : ℚ) - ctx.canvas.width / 2 ^ 51 ≤ dx + dw ∧
      (cy < 0 → dy = 50) ∧
      (0 ≤ cy → dy = cy ∧ dy ≤ ctx.canvas.height / 2 ^ 52 ∧
        (ctx.canvas.height : ℚ) - ctx.canvas.height / 2 ^ 51 ≤ dy + dh) := by
  obtain ⟨dx, dw, dh, cy, hcalls, hshift, hdw, hdh, _, gw, gh, _, cxhi, cxlo, cyhi, cylo⟩ :=
    scaleImage_bounds img ctx hw hh hW hH bw bh bW bH
  refine ⟨dx, if cy < 0 then 50 else cy, dw, dh, cy, ?_, hshift, hdw, hdh, gw, gh, cxhi, cxlo,
    ?_, ?_⟩
  · rw [hcalls]
  · intro hneg
    rw [if_pos hneg]
  · intro hpos
    rw [if_neg (not_lt.mpr hpos)]
    exact ⟨rfl, cyhi, cylo⟩

/-- Witness of C3 amended: the square 1024 x 1024 frame on a 2048 x 1024 surface. -/
theorem scaleImage_cover_witness :
    ∃ dx dy dw dh cy : ℚ,
      (scaleImage (some { index := 0, state := LoadState.loaded 1024 1024 })
          { canvas := { width := 2048, height := 1024 }, calls := [] }).calls = [] ++
        [CtxCall.clearRect (JSNum.ofNat 0) (JSNum.ofNat 0) (JSNum.ofNat (2048 : Nat))
            (JSNum.ofNat (1024 : Nat)),
          CtxCall.drawImage { index := 0, state := LoadState.loaded 1024 1024 }
            (JSNum.ofNat 0) (JSNum.ofNat 0) (JSNum.ofNat (1024 : Nat))
            (JSNum.ofNat (1024 : Nat)) (JSNum.fin dx) (JSNum.fin dy) (JSNum.fin dw)
            (JSNum.fin dh)] ∧
      computedShiftY { width := 2048, height := 1024 }
          { index := 0, state := LoadState.loaded 1024 1024 } = JSNum.fin cy ∧
      dw = roundQ ((1024 : Nat) * max (roundQ (((2048 : Nat) : ℚ) / (1024 : Nat)))
        (roundQ (((1024 : Nat) : ℚ) / (1024 : Nat)))) ∧
      dh = roundQ ((1024 : Nat) * max (roundQ (((2048 : Nat) : ℚ) / (1024 : Nat)))
        (roundQ (((1024 : Nat) : ℚ) / (1024 : Nat)))) ∧
      ((2048 : Nat) : ℚ) - (2048 : Nat) / 2 ^ 52 ≤ dw ∧
      ((1024 : Nat) : ℚ) - (1024 : Nat) / 2 ^ 52 ≤ dh ∧
      dx ≤ (2048 : Nat) / 2 ^ 52 ∧
      ((2048 : Nat) : ℚ) - (2048 : Nat) / 2 ^ 51 ≤ dx + dw ∧
      (cy < 0 → dy = 50) ∧
      (0 ≤ cy → dy = cy ∧ dy ≤ (1024 : Nat) / 2 ^ 52 ∧
        ((1024 : Nat) : ℚ) - (1024 : Nat) / 2 ^ 51 ≤ dy + dh) :=
  scaleImage_cover { index := 0, state := LoadState.loaded 1024 1024 }
    { canvas := { width := 2048, height := 1024 }, calls := [] }
    (by decide) (by decide) (by decide) (by decide)
    (by decide) (by decide) (by decide) (by decide)

/-! ## Preloader -/

/-- Every settlement increments `loadedImages`. -/
theorem settle_loadedImages (e : Settle) (p : Page) :
    (settle e p).loadedImages = p.loadedImages + 1 := by
  cases e <;> simp only [settle, onload, onerror, startWebsite, initScroll, render] <;>
    split_ifs <;> rfl

/-- No settlement changes `frameCount`. -/
theorem settle_frameCount (e : Settle) (p : Page) :
    (settle e p).frameCount = p.frameCount := by
  cases e <;> simp only [settle, onload, onerror, startWebsite, initScroll, render] <;>
    split_ifs <;> rfl

/-- No settlement changes whether the progress bar exists. -/
theorem settle_hasProgressBar (e : Settle) (p : Page) :
    (settle e p).hasProgressBar = p.hasProgressBar := by
  cases e <;> simp only [settle, onload, onerror, startWebsite, initScroll, render] <;>
    split_ifs <;> rfl

/-- A settlement calls `startWebsite` when, and only when, it brings `loadedImages` to
`frameCount`. -/
theorem settle_startWebsiteCalls (e : Settle) (p : Page) :
    (settle e p).startWebsiteCalls =
      p.startWebsiteCalls + (if p.loadedImages + 1 = p.frameCount then 1 else 0) := by
  cases e <;> simp only [settle, onload, onerror, startWebsite, initScroll, render] <;>
    split_ifs <;> rfl

/-- A successful load writes the new percentage to the progress bar. -/
theorem settle_load_progressWrites (i w h : Nat) (p : Page) (hbar : p.hasProgressBar = true) :
    (settle (Settle.load i w h) p).progressWrites =
      p.progressWrites ++ [percentage (p.loadedImages + 1) p.frameCount] := by
  simp only [settle, onload, startWebsite, initScroll, render, hbar, if_true]
  split_ifs <;> rfl

/-- A failed load writes nothing to the progress bar. -/
theorem settle_error_progressWrites (i : Nat) (p : Page) :
    (settle (Settle.error i) p).progressWrites = p.progressWrites := by
  simp only [settle, onerror, startWebsite, initScroll, render]
  split_ifs <;> rfl

/-- Settling a sequence followed by one more event. -/
theorem settleAll_concat (evs : List Settle) (e : Settle) (p : Page) :
    settleAll (evs ++ [e]) p = settle e (settleAll evs p) := by
  simp [settleAll, List.foldl_append]

/-- After a sequence of settlements `loadedImages` has grown by its length. -/
theorem settleAll_loadedImages (evs : List Settle) (p : Page) :
    (settleAll evs p).loadedImages = p.loadedImages + evs.length := by
  induction evs generalizing p with
  | nil => rfl
  | cons e evs ih =>
    show (settleAll evs (settle e p)).loadedImages = _
    rw [ih, settle_loadedImages, List.length_cons]
    omega

/-- A sequence of settlements leaves `frameCount` unchanged. -/
theorem settleAll_frameCount (evs : List Settle) (p : Page) :
    (settleAll evs p).frameCount = p.frameCount := by
  induction evs generalizing p with
  | nil => rfl
  | cons e evs ih =>
    show (settleAll evs (settle e p)).frameCount = _
    rw [ih, settle_frameCount]

/-- A sequence of settlements leaves the presence of the progress bar unchanged. -/
theorem settleAll_hasProgressBar (evs : List Settle) (p : Page) :
    (settleAll evs p).hasProgressBar = p.hasProgressBar := by
  induction evs generalizing p with
  | nil => rfl
  | cons e evs ih =>
    show (settleAll evs (settle e p)).hasProgressBar = _
    rw [ih, settle_hasProgressBar]

/-- Over a sequence of settlements `startWebsite` is called once if `loadedImages` passes
from below `frameCount` to `frameCount` or beyond, and not at all otherwise. -/
theorem settleAll_startWebsiteCalls (evs : List Settle) (p : Page) :
    (settleAll evs p).startWebsiteCalls =
      p.startWebsiteCalls +
        (if p.loadedImages < p.frameCount ∧ p.frameCount ≤ p.loadedImages + evs.length
          then 1 else 0) := by
  induction evs generalizing p with
  | nil =>
    have : ¬ (p.loadedImages < p.frameCount ∧ p.frameCount ≤ p.loadedImages + 0) := by omega
    simp [settleAll, this]
  | cons e evs ih =>
    show (settleAll evs (settle e p)).startWebsiteCalls = _
    rw [ih, settle_startWebsiteCalls, settle_loadedImages, settle_frameCount, List.length_cons]
    split_ifs <;> omega

/-- C1: for every frame count `N ≥ 1` and every sequence of settlements in which each of the
`N` frames settles exactly once (by `onload` or `onerror`, in any order), `startWebsite` has
been called exactly once after the whole sequence, and not at all after any shorter prefix. -/
theorem startWebsite_exactly_once (N W H : Nat) (hasLoader hasProgressBar : Bool)
    (evs : List Settle) (hN : 1 ≤ N)
    (hsettle : (evs.map Settle.index).Perm (List.range N)) :
    (settleAll evs (initPage N W H hasLoader hasProgressBar)).startWebsiteCalls = 1 ∧
    ∀ k, k < N →
      (settleAll (evs.take k) (initPage N W H hasLoader hasProgressBar)).startWebsiteCalls
        = 0 := by
  have hlen : evs.length = N := by
    have := hsettle.length_eq
    simpa using this
  constructor
  · rw [settleAll_startWebsiteCalls]
    simp only [initPage]
    rw [if_pos ⟨by omega, by omega⟩]
  · intro k hk
    rw [settleAll_startWebsiteCalls]
    simp only [initPage, List.length_take]
    rw [if_neg (by omega)]

/-- Witness of C1: three frames, settled in the order 2, 0, 1, the second by a failure. -/
theorem startWebsite_exactly_once_witness :
    (settleAll [Settle.load 2 1024 1024, Settle.error 0, Settle.load 1 1024 1024]
        (initPage 3 1920 1080 true true)).startWebsiteCalls = 1 ∧
    ∀ k, k < 3 →
      (settleAll ([Settle.load 2 1024 1024, Settle.error 0, Settle.load 1 1024 1024].take k)
        (initPage 3 1920 1080 true true)).startWebsiteCalls = 0 :=
  startWebsite_exactly_once 3 1920 1080 true true
    [Settle.load 2 1024 1024, Settle.error 0, Settle.load 1 1024 1024] (by decide) (by decide)

/-- The doubles of `(39 / 40) * 100`: exactly 97.5. -/
theorem percentage_39_40 : percentage 39 40 = JSNum.fin (195 / 2) := by
  have h1 : JSNum.round (((39 : Nat) : ℚ) / ((40 : Nat) : ℚ)) =
      JSNum.fin (8782019273372467 / 2 ^ 53) :=
    round_eval _ _ (-1) 8782019273372467 (by norm_num [le_abs]) (by norm_num [abs_lt])
      (by norm_num) (by norm_num [abs_lt]) (by norm_num) (by norm_num [abs_lt])
  have h2 : JSNum.round ((8782019273372467 / 2 ^ 53) * ((100 : Nat) : ℚ)) =
      JSNum.fin (195 / 2) :=
    round_eval _ _ (6) 6860952557322240 (by norm_num [le_abs]) (by norm_num [abs_lt])
      (by norm_num) (by norm_num [abs_lt]) (by norm_num) (by norm_num [abs_lt])
  have hn : ((40 : Nat) : ℚ) ≠ 0 := by norm_num
  simp only [percentage, JSNum.ofNat, JSNum.div, hn, if_false, h1, JSNum.mul, h2]

/-- The doubles of `(11 / 40) * 100`: 27.500000000000004, one spacing above 27.5. -/
theorem percentage_11_40 : percentage 11 40 = JSNum.fin (7740561859543041 / 2 ^ 48) := by
  have h1 : JSNum.round (((11 : Nat) : ℚ) / ((40 : Nat) : ℚ)) =
      JSNum.fin (2476979795053773 / 2 ^ 53) :=
    round_eval _ _ (-2) 4953959590107546 (by norm_num [le_abs]) (by norm_num [abs_lt])
      (by norm_num) (by norm_num [abs_lt]) (by norm_num) (by norm_num [abs_lt])
  have h2 : JSNum.round ((2476979795053773 / 2 ^ 53) * ((100 : Nat) : ℚ)) =
      JSNum.fin (7740561859543041 / 2 ^ 48) :=
    round_eval _ _ (4) 7740561859543041 (by norm_num [le_abs]) (by norm_num [abs_lt])
      (by norm_num) (by norm_num [abs_lt]) (by norm_num) (by norm_num [abs_lt])
  have hn : ((40 : Nat) : ℚ) ≠ 0 := by norm_num
  simp only [percentage, JSNum.ofNat, JSNum.div, hn, if_false, h1, JSNum.mul, h2]

/-- C6, the code at the failing input: with 40 frames and a progress bar present, the first
settlement being the failure of frame 0, `onerror` counts the frame (`loadedImages = 1`) but
writes no percentage to the progress bar. -/
theorem onerror_skips_progress :
    (settle (Settle.error 0) (initPage 40 1920 1080 true true)).loadedImages = 1 ∧
    (settle (Settle.error 0) (initPage 40 1920 1080 true true)).hasProgressBar = true ∧
    (settle (Settle.error 0) (initPage 40 1920 1080 true true)).progressWrites = [] := by
  refine ⟨?_, ?_, ?_⟩
  · rw [settle_loadedImages]; rfl
  · rw [settle_hasProgressBar]; rfl
  · rw [settle_error_progressWrites]; rfl

/-- C5, the code at the failing input: with 40 frames and a progress bar present, frames
0 to 38 load and frame 39 fails last. `startWebsite` runs at that final settlement, but the
percentage shown stays at 97.5 and never becomes 100. -/
theorem final_error_progress_not_100 :
    (settleAll ((List.range 39).map (fun i => Settle.load i 1024 1024) ++ [Settle.error 39])
        (initPage 40 1920 1080 true true)).startWebsiteCalls = 1 ∧
    shownPercentage
        (settleAll ((List.range 39).map (fun i => Settle.load i 1024 1024) ++ [Settle.error 39])
          (initPage 40 1920 1080 true true)) = some (JSNum.fin (195 / 2)) ∧
    JSNum.fin (195 / 2) ≠ JSNum.ofNat 100 := by
  refine ⟨?_, ?_, ?_⟩
  · rw [settleAll_startWebsiteCalls]
    simp [initPage]
  · rw [settleAll_concat, shownPercentage, settle_error_progressWrites, List.range_succ,
      List.map_append, List.map_singleton, settleAll_concat, settle_load_progressWrites,
      settleAll_loadedImages, settleAll_frameCount]
    · simp [initPage, percentage_39_40]
    · rw [settleAll_hasProgressBar]; rfl
  · norm_num [JSNum.ofNat]

/-- C2, the code at the failing input: 40 frames on a 1920 x 1080 canvas, frame 0 has failed
and `imageSeq.frame` is 0. `images[0]` is still an `Image` object, so `render` does not
return early: it clears the canvas and calls `drawImage` with `NaN` geometry. -/
theorem render_failed_frame_clears :
    (render (settle (Settle.error 0) (initPage 40 1920 1080 true true))).ctx.calls =
      (settle (Settle.error 0) (initPage 40 1920 1080 true true)).ctx.calls ++
        [CtxCall.clearRect (JSNum.fin 0) (JSNum.fin 0) (JSNum.fin 1920) (JSNum.fin 1080),
          CtxCall.drawImage { index := 0, state := LoadState.failed }
            (JSNum.fin 0) (JSNum.fin 0) (JSNum.fin 0) (JSNum.fin 0)
            JSNum.nan JSNum.nan JSNum.nan JSNum.nan] ∧
    (render (settle (Settle.error 0) (initPage 40 1920 1080 true true))).ctx ≠
      (settle (Settle.error 0) (initPage 40 1920 1080 true true)).ctx := by
  have h : (render (settle (Settle.error 0) (initPage 40 1920 1080 true true))).ctx.calls =
      (settle (Settle.error 0) (initPage 40 1920 1080 true true)).ctx.calls ++
        [CtxCall.clearRect (JSNum.fin 0) (JSNum.fin 0) (JSNum.fin 1920) (JSNum.fin 1080),
          CtxCall.drawImage { index := 0, state := LoadState.failed }
            (JSNum.fin 0) (JSNum.fin 0) (JSNum.fin 0) (JSNum.fin 0)
            JSNum.nan JSNum.nan JSNum.nan JSNum.nan] := by
    simp [render, settle, onerror, initPage, setLoadState, List.range_succ, scaleImage,
      Image.width, Image.height, JSNum.ofNat, JSNum.div, JSNum.max, JSNum.mul, JSNum.mulInf,
      JSNum.sub, JSNum.lt, Context.clearRect, Context.drawImage]
  refine ⟨h, ?_⟩
  intro hctx
  rw [hctx] at h
  simp at h

/-! ## Resize debounce -/

/-- When every pending timer is the one recorded in `resizeTimeout`, `clearTimeout` leaves
none. -/
theorem clearTimeout_eq_nil (rt : Option Nat) (timers : List Timer)
    (hinv : ∀ t ∈ timers, rt = some t.id) : clearTimeout rt timers = [] := by
  cases rt with
  | none =>
    cases timers with
    | nil => rfl
    | cons t ts => exact absurd (hinv t (List.mem_cons_self t ts)) (by simp)
  | some id =>
    simp only [clearTimeout, List.filter_eq_nil_iff]
    intro t ht
    have := hinv t ht
    simp only [Option.some.injEq] at this
    simp [this]

/-- One resize event on a page whose pending timers are all the recorded one. -/
theorem resizeEvent_eq (s : Nat × Nat) (p : Page)
    (hinv : ∀ t ∈ p.timers, p.resizeTimeout = some t.id) :
    resizeEvent s p =
      { p with
        innerWidth := s.1
        innerHeight := s.2
        timers := [{ id := p.nextTimerId, delay := 100 }]
        resizeTimeout := some p.nextTimerId
        nextTimerId := p.nextTimerId + 1 } := by
  simp only [resizeEvent, onResize]
  rw [clearTimeout_eq_nil _ _ hinv]
  rfl

/-- The state after a burst of resize events: the window has the last size, one timer is
pending, and nothing else has changed. -/
theorem resizeBurst_eq (sizes : List (Nat × Nat)) (p : Page) (hne : sizes ≠ [])
    (hinv : ∀ t ∈ p.timers, p.resizeTimeout = some t.id) :
    ∃ id, resizeBurst sizes p =
      { p with
        innerWidth := (sizes.getLast hne).1
        innerHeight := (sizes.getLast hne).2
        timers := [{ id := id, delay := 100 }]
        resizeTimeout := some id
        nextTimerId := id + 1 } := by
  induction sizes generalizing p with
  | nil => exact absurd rfl hne
  | cons s rest ih =>
    cases rest with
    | nil => exact ⟨p.nextTimerId, resizeEvent_eq s p hinv⟩
    | cons s' rest' =>
      have hstep : resizeBurst (s :: s' :: rest') p
          = resizeBurst (s' :: rest') (resizeEvent s p) := rfl
      have hinv' : ∀ t ∈ (resizeEvent s p).timers,
          (resizeEvent s p).resizeTimeout = some t.id := by
        rw [resizeEvent_eq s p hinv]
        intro t ht
        simp only [List.mem_singleton] at ht
        rw [ht]
      obtain ⟨id, hid⟩ := ih (resizeEvent s p) (by simp) hinv'
      refine ⟨id, ?_⟩
      rw [hstep, hid, resizeEvent_eq s p hinv]
      simp [List.getLast_cons]

/-- The page as loaded has no pending timer. -/
theorem initPage_timersRecorded (N W H : Nat) (hasLoader hasProgressBar : Bool) :
    TimersRecorded (initPage N W H hasLoader hasProgressBar) := by
  intro t ht
  simp [initPage] at ht

/-- A resize event keeps every pending timer recorded. -/
theorem resizeEvent_timersRecorded (s : Nat × Nat) (p : Page) (h : TimersRecorded p) :
    TimersRecorded (resizeEvent s p) := by
  rw [resizeEvent_eq s p h]
  intro t ht
  simp only [List.mem_singleton] at ht
  rw [ht]

/-- Once the timers have fired none is pending. -/
theorem fireTimers_timers (p : Page) : (fireTimers p).timers = [] := by
  unfold fireTimers
  generalize hq : ({ p with timers := [] } : Page) = q
  have hq0 : q.timers = [] := by rw [← hq]
  clear hq
  induction p.timers generalizing q with
  | nil => exact hq0
  | cons t ts ih => exact ih (resizeCallback q) hq0

/-- Firing the timers keeps every pending timer recorded. -/
theorem fireTimers_timersRecorded (p : Page) : TimersRecorded (fireTimers p) := by
  intro t ht
  rw [fireTimers_timers] at ht
  simp at ht

/-- C7: a burst of `K ≥ 1` resize events with no timer firing in between leaves exactly one
timer pending (of 100 ms) and repaints nothing; when the timers fire, the resize callback runs
exactly once: one `render`, on a canvas sized to the window size of the last event. -/
theorem resize_burst_runs_once (sizes : List (Nat × Nat)) (p : Page) (hne : sizes ≠ [])
    (hinv : TimersRecorded p) :
    (∃ id, (resizeBurst sizes p).timers = [{ id := id, delay := 100 }]) ∧
    (resizeBurst sizes p).renderedFrames = p.renderedFrames ∧
    (resizeBurst sizes p).ctx = p.ctx ∧
    (fireTimers (resizeBurst sizes p)).timers = [] ∧
    (fireTimers (resizeBurst sizes p)).renderedFrames = p.renderedFrames ++ [p.frame] ∧
    (fireTimers (resizeBurst sizes p)).ctx =
      scaleImage p.images[p.frame]?
        { p.ctx with
          canvas := { width := (sizes.getLast hne).1, height := (sizes.getLast hne).2 } } := by
  obtain ⟨id, hid⟩ := resizeBurst_eq sizes p hne hinv
  rw [hid]
  exact ⟨⟨id, rfl⟩, rfl, rfl, rfl, rfl, rfl⟩

/-- Witness of C7: three resize events right after page load. -/
theorem resize_burst_runs_once_witness :
    (∃ id, (resizeBurst [(800, 600), (1024, 700), (1280, 720)]
        (initPage 40 1920 1080 true true)).timers = [{ id := id, delay := 100 }]) ∧
    (resizeBurst [(800, 600), (1024, 700), (1280, 720)]
        (initPage 40 1920 1080 true true)).renderedFrames =
      (initPage 40 1920 1080 true true).renderedFrames ∧
    (resizeBurst [(800, 600), (1024, 700), (1280, 720)]
        (initPage 40 1920 1080 true true)).ctx = (initPage 40 1920 1080 true true).ctx ∧
    (fireTimers (resizeBurst [(800, 600), (1024, 700), (1280, 720)]
        (initPage 40 1920 1080 true true))).timers = [] ∧
    (fireTimers (resizeBurst [(800, 600), (1024, 700), (1280, 720)]
        (initPage 40 1920 1080 true true))).renderedFrames =
      (initPage 40 1920 1080 true true).renderedFrames ++
        [(initPage 40 1920 1080 true true).frame] ∧
    (fireTimers (resizeBurst [(800, 600), (1024, 700), (1280, 720)]
        (initPage 40 1920 1080 true true))).ctx =
      scaleImage
        (initPage 40 1920 1080 true true).images[(initPage 40 1920 1080 true true).frame]?
        { (initPage 40 1920 1080 true true).ctx with
          canvas := { width := 1280, height := 720 } } :=
  resize_burst_runs_once [(800, 600), (1024, 700), (1280, 720)]
    (initPage 40 1920 1080 true true) (by decide) (by simp [TimersRecorded, initPage])

/-! ## Animation-frame throttle -/

/-- While a callback is already scheduled, scrub updates only move `imageSeq.frame`. -/
theorem scrubBurst_ticking (frames : List Nat) (p : Page) (hne : frames ≠ [])
    (htick : p.ticking = true) :
    scrubBurst frames p = { p with frame := frames.getLast hne } := by
  induction frames generalizing p with
  | nil => exact absurd rfl hne
  | cons f rest ih =>
    have hstep : scrubBurst (f :: rest) p = scrubBurst rest (scrubUpdate f p) := rfl
    have hupd : scrubUpdate f p = { p with frame := f } := by
      simp [scrubUpdate, requestTick, htick]
    cases rest with
    | nil => rw [hstep, hupd]; rfl
    | cons f' rest' =>
      rw [hstep, hupd, ih { p with frame := f } (by simp) htick]
      simp [List.getLast_cons]

/-- The state after a burst of scrub updates that starts with no callback scheduled: the
cursor is at the last frame, one more callback is pending, and `ticking` is set. -/
theorem scrubBurst_eq (frames : List Nat) (p : Page) (hne : frames ≠ [])
    (htick : p.ticking = false) :
    scrubBurst frames p =
      { p with
        frame := frames.getLast hne
        rafPending := p.rafPending + 1
        ticking := true } := by
  cases frames with
  | nil => exact absurd rfl hne
  | cons f rest =>
    have hstep : scrubBurst (f :: rest) p = scrubBurst rest (scrubUpdate f p) := rfl
    have hupd : scrubUpdate f p =
        { p with frame := f, rafPending := p.rafPending + 1, ticking := true } := by
      simp [scrubUpdate, requestTick, htick]
    cases rest with
    | nil => rw [hstep, hupd]; rfl
    | cons f' rest' =>
      rw [hstep, hupd, scrubBurst_ticking (f' :: rest') _ (by simp) rfl]
      simp [List.getLast_cons]

/-- The page as loaded has no animation-frame callback pending. -/
theorem initPage_tickingRecorded (N W H : Nat) (hasLoader hasProgressBar : Bool) :
    TickingRecorded (initPage N W H hasLoader hasProgressBar) := rfl

/-- A scrub update keeps `ticking` in step with the pending callbacks. -/
theorem scrubUpdate_tickingRecorded (f : Nat) (p : Page) (h : TickingRecorded p) :
    TickingRecorded (scrubUpdate f p) := by
  unfold TickingRecorded at *
  cases ht : p.ticking <;> simp_all [scrubUpdate, requestTick]

/-- A display refresh on such a page leaves no callback pending and `ticking` cleared. -/
theorem displayRefresh_idle (p : Page) (h : TickingRecorded p) :
    (displayRefresh p).ticking = false ∧ (displayRefresh p).rafPending = 0 := by
  unfold TickingRecorded at h
  unfold displayRefresh
  cases ht : p.ticking
  · rw [ht] at h
    simp only [Bool.false_eq_true, if_false] at h
    rw [h]
    exact ⟨rfl, rfl⟩
  · rw [ht] at h
    simp only [if_true] at h
    rw [h]
    exact ⟨rfl, rfl⟩

/-- C8: `K ≥ 1` scrub updates arriving between two display refreshes, none being scheduled
before, schedule exactly one animation-frame callback and paint nothing themselves; at the
refresh exactly one `render` runs, and it draws the frame set by the last update. -/
theorem scrub_burst_one_repaint (frames : List Nat) (p : Page) (hne : frames ≠ [])
    (htick : p.ticking = false) (hraf : p.rafPending = 0) :
    (scrubBurst frames p).rafPending = 1 ∧
    (scrubBurst frames p).renderedFrames = p.renderedFrames ∧
    (scrubBurst frames p).ctx = p.ctx ∧
    (displayRefresh (scrubBurst frames p)).renderedFrames =
      p.renderedFrames ++ [frames.getLast hne] ∧
    (displayRefresh (scrubBurst frames p)).ctx =
      scaleImage p.images[frames.getLast hne]? p.ctx ∧
    (displayRefresh (scrubBurst frames p)).ticking = false ∧
    (displayRefresh (scrubBurst frames p)).rafPending = 0 := by
  rw [scrubBurst_eq frames p hne htick]
  have hrefresh :
      displayRefresh
          { p with frame := frames.getLast hne, rafPending := p.rafPending + 1, ticking := true }
        = rafCallback { p with frame := frames.getLast hne, rafPending := 0, ticking := true } := by
    simp only [displayRefresh, hraf]
    rfl
  rw [hrefresh]
  exact ⟨by simp [hraf], rfl, rfl, rfl, rfl, rfl, rfl⟩

/-- Witness of C8: the scrub moves through frames 3, 4 and 7 before the first refresh. -/
theorem scrub_burst_one_repaint_witness :
    (scrubBurst [3, 4, 7] (initPage 40 1920 1080 true true)).rafPending = 1 ∧
    (scrubBurst [3, 4, 7] (initPage 40 1920 1080 true true)).renderedFrames =
      (initPage 40 1920 1080 true true).renderedFrames ∧
    (scrubBurst [3, 4, 7] (initPage 40 1920 1080 true true)).ctx =
      (initPage 40 1920 1080 true true).ctx ∧
    (displayRefresh (scrubBurst [3, 4, 7] (initPage 40 1920 1080 true true))).renderedFrames =
      (initPage 40 1920 1080 true true).renderedFrames ++ [7] ∧
    (displayRefresh (scrubBurst [3, 4, 7] (initPage 40 1920 1080 true true))).ctx =
      scaleImage (initPage 40 1920 1080 true true).images[7]?
        (initPage 40 1920 1080 true true).ctx ∧
    (displayRefresh (scrubBurst [3, 4, 7] (initPage 40 1920 1080 true true))).ticking = false ∧
    (displayRefresh (scrubBurst [3, 4, 7] (initPage 40 1920 1080 true true))).rafPending = 0 :=
  scrub_burst_one_repaint [3, 4, 7] (initPage 40 1920 1080 true true) (by decide) rfl rfl

/-! ## Scrub tween -/

/-- The rounding `Math.round` is monotone. -/
theorem jsRound_mono {x y : ℚ} (h : x ≤ y) : jsRound x ≤ jsRound y :=
  Int.floor_mono (by linarith)

/-- The rounding `Math.round` fixes the integers. -/
theorem jsRound_intCast (z : Int) : jsRound (z : ℚ) = z := by
  unfold jsRound
  rw [Int.floor_int_add]
  norm_num

/-- The scrub map never leaves the frame array. -/
theorem scrubFrame_lt (N : Nat) (hN : 1 ≤ N) (progress : ℚ) : scrubFrame N progress < N := by
  unfold scrubFrame
  have h := min_le_right (max (jsRound (progress * ((N : ℚ) - 1))) 0) ((N : Int) - 1)
  omega

/-- C9: for `N ≥ 2` frames the scrub map `round(p * (N-1))` clamped to `[0, N-1]` sends
progress 0 to frame 0 and progress 1 to frame `N-1`, is monotonically non-decreasing in the
progress, and always yields a valid index of the frame array built for `N` frames. -/
theorem scrubFrame_endpoints_monotone (N : Nat) (hN : 2 ≤ N) :
    scrubFrame N 0 = 0 ∧ scrubFrame N 1 = N - 1 ∧
    (∀ p q : ℚ, 0 ≤ p → p ≤ q → q ≤ 1 → scrubFrame N p ≤ scrubFrame N q) ∧
    (∀ (p : ℚ) (W H : Nat) (hasLoader hasProgressBar : Bool), 0 ≤ p → p ≤ 1 →
      scrubFrame N p < (initPage N W H hasLoader hasProgressBar).images.length) := by
  have hN1 : (0 : ℚ) ≤ (N : ℚ) - 1 := by
    have : (2 : ℚ) ≤ N := by exact_mod_cast hN
    linarith
  refine ⟨?_, ?_, ?_, ?_⟩
  · unfold scrubFrame
    have h0 : jsRound (0 * ((N : ℚ) - 1)) = 0 := by
      rw [zero_mul]
      exact_mod_cast jsRound_intCast 0
    rw [h0]
    have : (0 : Int) ≤ (N : Int) - 1 := by omega
    simp [this]
  · unfold scrubFrame
    have h1 : jsRound (1 * ((N : ℚ) - 1)) = (N : Int) - 1 := by
      rw [one_mul]
      have := jsRound_intCast ((N : Int) - 1)
      push_cast at this
      exact this
    rw [h1]
    have : (0 : Int) ≤ (N : Int) - 1 := by omega
    rw [max_eq_left this, min_self]
    omega
  · intro p q _ hpq _
    unfold scrubFrame
    have hr : jsRound (p * ((N : ℚ) - 1)) ≤ jsRound (q * ((N : ℚ) - 1)) :=
      jsRound_mono (mul_le_mul_of_nonneg_right hpq hN1)
    apply Int.toNat_le_toNat
    exact min_le_min (max_le_max hr le_rfl) le_rfl
  · intro p W H hasLoader hasProgressBar _ _
    simp only [initPage, List.length_map, List.length_range]
    exact scrubFrame_lt N (by omega) p

/-- Witness of C9: the 40 frames of the page. -/
theorem scrubFrame_endpoints_monotone_witness :
    scrubFrame 40 0 = 0 ∧ scrubFrame 40 1 = 40 - 1 ∧
    (∀ p q : ℚ, 0 ≤ p → p ≤ q → q ≤ 1 → scrubFrame 40 p ≤ scrubFrame 40 q) ∧
    (∀ (p : ℚ) (W H : Nat) (hasLoader hasProgressBar : Bool), 0 ≤ p → p ≤ 1 →
      scrubFrame 40 p < (initPage 40 W H hasLoader hasProgressBar).images.length) :=
  scrubFrame_endpoints_monotone 40 (by decide)

end Portfolio
